import Mathlib

/-!
Verification of the report-lifecycle core of SigmaReports-Bot.

The development shallowly embeds the SQLite-backed store (`bot/db.py`), the
staff action handlers (`bot/views.py`), the submission modals (`bot/modals.py`)
and the command cogs (`bot/cogs/reports.py`, `bot/cogs/panel.py`).  Pure code
becomes Lean functions; the database becomes an explicit `DBState` value that
every mutating operation takes and returns; timestamps are abstract integers
threaded in place of `datetime.now`; the chat platform is an explicit
environment record, and every externally visible effect of a handler (a
rejection message, a direct message to the reporter) is part of the handler
result value.
-/

/-! ## Python JSON values

`bot/db.py` stores each report payload with `json.dumps(payload,
ensure_ascii=False)` and recovers it with `json.loads`.  `PyJson` is the value
space of those structured payloads (the program only ever stores strings,
but the model keeps the whole structured type: null, booleans, integers,
strings, arrays and objects).  Objects keep their insertion order, as Python
dicts do. -/

inductive PyJson where
  | null : PyJson
  | bool (b : Bool) : PyJson
  | int (n : Int) : PyJson
  | str (s : String) : PyJson
  | arr (xs : List PyJson) : PyJson
  | obj (kvs : List (String × PyJson)) : PyJson

/-- Lowercase hexadecimal digit character, as produced by the `%04x` format
used in the escape table of Python json. -/
def hexDig (n : Nat) : Char :=
  if n < 10 then Char.ofNat ('0'.toNat + n) else Char.ofNat ('a'.toNat + (n - 10))

/-- Python json string escaping with `ensure_ascii=False`
(`py_encode_basestring`): backslash, double quote and the short control
escapes get two-character forms, every other character below 0x20 becomes
a `\u00xx` escape, and everything else is copied through literally. -/
def escChar (c : Char) : List Char :=
  if c = '\\' then ['\\', '\\']
  else if c = '"' then ['\\', '"']
  else if c = '\n' then ['\\', 'n']
  else if c = '\t' then ['\\', 't']
  else if c = '\r' then ['\\', 'r']
  else if c = '\x08' then ['\\', 'b']
  else if c = '\x0c' then ['\\', 'f']
  else if c.toNat < 0x20 then
    '\\' :: 'u' :: '0' :: '0' :: [hexDig (c.toNat / 16), hexDig (c.toNat % 16)]
  else [c]

/-- A quoted, escaped JSON string literal. -/
def strLit (s : String) : List Char :=
  '"' :: (s.toList.flatMap escChar ++ ['"'])

/-- Decimal digit characters by repeated division; structural on a fuel
argument that any value larger than the number satisfies. -/
def natDigsF : Nat → Nat → List Char
  | 0, _ => []
  | fuel + 1, n =>
    if n < 10 then [Char.ofNat ('0'.toNat + n)]
    else natDigsF fuel (n / 10) ++ [Char.ofNat ('0'.toNat + n % 10)]

/-- Decimal digit characters of a natural number, most significant first. -/
def natDigs (n : Nat) : List Char := natDigsF (n + 1) n

/-- Characters of the decimal rendering of an integer, as `str(n)` prints it. -/
def intDigs (n : Int) : List Char :=
  if n < 0 then '-' :: natDigs n.natAbs else natDigs n.natAbs

mutual

/-- Serialization of a payload: `json.dumps(payload, ensure_ascii=False)` with
the default separators, which put one space after each comma and colon. -/
def dumpJson : PyJson → List Char
  | .null => "null".toList
  | .bool true => "true".toList
  | .bool false => "false".toList
  | .int n => intDigs n
  | .str s => strLit s
  | .arr [] => ['[', ']']
  | .arr (x :: xs) => '[' :: (dumpJson x ++ dumpArrRest xs ++ [']'])
  | .obj [] => ['{', '}']
  | .obj (kv :: kvs) => '{' :: (dumpPair kv ++ dumpObjRest kvs ++ ['}'])

/-- Remaining array elements, each preceded by the `", "` separator. -/
def dumpArrRest : List PyJson → List Char
  | [] => []
  | x :: xs => ',' :: ' ' :: (dumpJson x ++ dumpArrRest xs)

/-- One object entry: quoted key, `": "`, value. -/
def dumpPair : String × PyJson → List Char
  | (k, v) => strLit k ++ ':' :: ' ' :: dumpJson v

/-- Remaining object entries, each preceded by the `", "` separator. -/
def dumpObjRest : List (String × PyJson) → List Char
  | [] => []
  | kv :: kvs => ',' :: ' ' :: (dumpPair kv ++ dumpObjRest kvs)

end

/-- `json.dumps(payload, ensure_ascii=False)` as a Lean string. -/
def pyDumps (v : PyJson) : String := String.mk (dumpJson v)

/-! ## Python JSON parsing

`json.loads` as used by `ReportDB._row_to_report`.  The decoder is a
recursive-descent parser over the character list; a fuel counter makes the
recursion structural.  In strict mode (the default, which `db.py` uses) a raw
control character inside a string literal is an error, and the model follows
that.  Numbers are decoded as integers; a fractional part or an exponent makes
the token a float, which is outside the payload value space modelled here, so
the decoder rejects it. -/

/-- JSON whitespace accepted between tokens (`json.decoder` skips exactly
space, tab, newline and carriage return). -/
def jsonWs (c : Char) : Bool := c = ' ' || c = '\t' || c = '\n' || c = '\r'

/-- Skip inter-token whitespace. -/
def skipJsonWs (cs : List Char) : List Char := cs.dropWhile jsonWs

/-- Decimal digit test. -/
def isDig (c : Char) : Bool := '0' ≤ c && c ≤ '9'

/-- Value of one hexadecimal digit, if it is one. -/
def hexDigVal (c : Char) : Option Nat :=
  if 48 ≤ c.toNat ∧ c.toNat ≤ 57 then some (c.toNat - 48)
  else if 97 ≤ c.toNat ∧ c.toNat ≤ 102 then some (c.toNat - 87)
  else if 65 ≤ c.toNat ∧ c.toNat ≤ 70 then some (c.toNat - 55)
  else none

/-- Decode a four-digit `\uXXXX` escape. -/
def hexQuad (a b c d : Char) : Option Nat := do
  let va ← hexDigVal a
  let vb ← hexDigVal b
  let vc ← hexDigVal c
  let vd ← hexDigVal d
  pure (((va * 16 + vb) * 16 + vc) * 16 + vd)

/-- The backslash table of `json.decoder`: the eight short escapes. -/
def escDecode (e : Char) : Option Char :=
  if e = '"' then some '"'
  else if e = '\\' then some '\\'
  else if e = '/' then some '/'
  else if e = 'b' then some '\x08'
  else if e = 'f' then some '\x0c'
  else if e = 'n' then some '\n'
  else if e = 'r' then some '\r'
  else if e = 't' then some '\t'
  else none

/-- Body of a string literal, after the opening quote (`py_scanstring`).
`acc` holds the characters read so far, in reverse.  A quote closes the
literal; a backslash starts a short escape or a `\uXXXX` escape; a raw
control character is an error in strict mode; anything else is literal. -/
def scanStr (acc : List Char) : List Char → Option (String × List Char)
  | [] => none
  | c :: rest =>
    if c = '"' then some (String.mk acc.reverse, rest)
    else if c = '\\' then
      match rest with
      | [] => none
      | e :: r =>
        if e = 'u' then
          match r with
          | a :: b :: c2 :: d :: r2 =>
            match hexQuad a b c2 d with
            | some n => scanStr (Char.ofNat n :: acc) r2
            | none => none
          | _ => none
        else
          match escDecode e with
          | some ec => scanStr (ec :: acc) r
          | none => none
    else if c.toNat < 0x20 then none
    else scanStr (c :: acc) rest

/-- Longest digit run at the head of the input, and what follows it. -/
def scanDigits : List Char → List Char × List Char
  | [] => ([], [])
  | c :: rest =>
    if isDig c then
      let (ds, r) := scanDigits rest
      (c :: ds, r)
    else ([], c :: rest)

/-- Numeric value of a digit run. -/
def digitsVal (ds : List Char) : Nat :=
  ds.foldl (fun acc c => acc * 10 + (c.toNat - '0'.toNat)) 0

/-- Shared body of integer-token decoding: after the optional sign, the token
needs at least one digit, must not have a redundant leading zero (the number
pattern of `json.decoder` is `-?(0|[1-9][0-9]*)`), and must not continue with
a fractional part or an exponent (floats are outside the modelled value
space, so the decoder rejects them). -/
def scanIntCore (neg : Bool) (body : List Char) : Option (Int × List Char) :=
  match scanDigits body with
  | ([], _) => none
  | (ds, r) =>
    if ds.head? = some '0' ∧ 1 < ds.length then none
    else
      match r with
      | [] => some (if neg then -(digitsVal ds : Int) else (digitsVal ds : Int), [])
      | c :: _ =>
        if c = '.' || c = 'e' || c = 'E' then none
        else some (if neg then -(digitsVal ds : Int) else (digitsVal ds : Int), r)

/-- Decode an integer token at the head of the input. -/
def scanInt (cs : List Char) : Option (Int × List Char) :=
  match cs with
  | [] => none
  | c :: r => if c = '-' then scanIntCore true r else scanIntCore false (c :: r)

mutual

/-- Decode one JSON value at the head of the input (whitespace allowed
first), returning it with the unconsumed remainder.  The dispatch mirrors
`json.decoder`: quote, bracket and brace open the three compound forms, the
literal names are compared as slices, and a sign or digit starts a number. -/
def scanJson (fuel : Nat) (cs : List Char) : Option (PyJson × List Char) :=
  match fuel with
  | 0 => none
  | fuel + 1 =>
    match skipJsonWs cs with
    | [] => none
    | c :: r =>
      if c = '"' then
        match scanStr [] r with
        | some (s, r1) => some (.str s, r1)
        | none => none
      else if c = '[' then
        match skipJsonWs r with
        | [] => none
        | d :: r1 =>
          if d = ']' then some (.arr [], r1)
          else
            match scanArr fuel (d :: r1) with
            | some (xs, r2) => some (.arr xs, r2)
            | none => none
      else if c = '{' then
        match skipJsonWs r with
        | [] => none
        | d :: r1 =>
          if d = '}' then some (.obj [], r1)
          else
            match scanObj fuel (d :: r1) with
            | some (kvs, r2) => some (.obj kvs, r2)
            | none => none
      else if c = 'n' then
        if r.take 3 = ['u', 'l', 'l'] then some (.null, r.drop 3) else none
      else if c = 't' then
        if r.take 3 = ['r', 'u', 'e'] then some (.bool true, r.drop 3) else none
      else if c = 'f' then
        if r.take 4 = ['a', 'l', 's', 'e'] then some (.bool false, r.drop 4) else none
      else if c = '-' || isDig c then
        match scanInt (c :: r) with
        | some (n, r1) => some (.int n, r1)
        | none => none
      else none

/-- Decode the elements of a nonempty array, up to and including the closing
bracket. -/
def scanArr (fuel : Nat) (cs : List Char) : Option (List PyJson × List Char) :=
  match fuel with
  | 0 => none
  | fuel + 1 =>
    match scanJson fuel cs with
    | none => none
    | some (v, r) =>
      match skipJsonWs r with
      | [] => none
      | d :: r1 =>
        if d = ',' then
          match scanArr fuel r1 with
          | some (vs, r2) => some (v :: vs, r2)
          | none => none
        else if d = ']' then some ([v], r1)
        else none

/-- Decode the entries of a nonempty object, up to and including the closing
brace. -/
def scanObj (fuel : Nat) (cs : List Char) : Option (List (String × PyJson) × List Char) :=
  match fuel with
  | 0 => none
  | fuel + 1 =>
    match cs with
    | [] => none
    | c :: r =>
      if c = '"' then
        match scanStr [] r with
        | none => none
        | some (k, r1) =>
          match skipJsonWs r1 with
          | [] => none
          | d :: r2 =>
            if d = ':' then
              match scanJson fuel r2 with
              | none => none
              | some (v, r3) =>
                match skipJsonWs r3 with
                | [] => none
                | e :: r4 =>
                  if e = ',' then
                    match scanObj fuel (skipJsonWs r4) with
                    | some (kvs, r5) => some ((k, v) :: kvs, r5)
                    | none => none
                  else if e = '}' then some ([(k, v)], r4)
                  else none
            else none
      else none

end

/-- `json.loads`: decode a complete document, allowing trailing whitespace
only. -/
def pyLoads (s : String) : Option PyJson :=
  match scanJson (s.length + 1) s.toList with
  | some (v, rest) => if skipJsonWs rest = [] then some v else none
  | none => none

/-! ## Python string helpers used by the handlers -/

/-- Characters removed by `str.strip()` with no argument (the ASCII part of
Python whitespace: space, tab, linefeed, return, vertical tab, formfeed). -/
def pySpace (c : Char) : Bool :=
  c = ' ' || c = '\t' || c = '\n' || c = '\r' || c = '\x0b' || c = '\x0c'

/-- Drop characters satisfying `p` from both ends of a character list. -/
def stripEnds (p : Char → Bool) (cs : List Char) : List Char :=
  ((cs.dropWhile p).reverse.dropWhile p).reverse

/-- Python `s.strip()`. -/
def pyStrip (s : String) : String := String.mk (stripEnds pySpace s.toList)

/-- Python `s.strip("/")`, used on URL paths. -/
def stripSlashes (s : String) : String := String.mk (stripEnds (· = '/') s.toList)

/-- Python truthiness of an optional integer (`None` and `0` are falsy), the
test `block_user` applies to its `duration_minutes` argument. -/
def pyTruthyOptInt : Option Int → Bool
  | none => false
  | some n => n != 0

/-- Python truthiness of an optional identifier as `get_ticket_channel_id`
applies it (`int(val) if val else None`): `NULL` and `0` give `None`. -/
def pyOptId : Option Nat → Option Nat
  | none => none
  | some v => if v = 0 then none else some v

/-! ## The report store (`bot/db.py`)

Timestamps are abstract integers standing for the ISO instants that
`_utcnow_iso` writes; each operation that calls `datetime.now` takes the
current instant `now` as an argument.  A row of the `reports` table after
`_ensure_schema` has run (the base columns plus the three added by
`_ensure_column`): -/

structure Report where
  id : Nat
  report_type : String
  reporter_id : Nat
  guild_id : Nat
  source_channel_id : Nat
  staff_message_id : Option Nat
  status : String
  payload_json : String
  created_at : Int
  updated_at : Option Int
  ticket_channel_id : Option Nat
  resolved_by : Option Nat
  resolved_at : Option Int
deriving DecidableEq, Repr

/-- A row of the `user_blocks` table. -/
structure Block where
  guild_id : Nat
  user_id : Nat
  is_permanent : Bool
  expires_at : Option Int
  reason : String
  blocked_by : Option Nat
  created_at : Int
deriving DecidableEq, Repr

/-- The mutable store: the `reports` table in rowid order together with the
next id `AUTOINCREMENT` will assign, and the `user_blocks` table.  (The
`settings` and `liveboards` tables take part in no claim and are omitted.) -/
structure DBState where
  reports : List Report
  nextId : Nat
  blocks : List Block
deriving DecidableEq, Repr

/-- The store right after `_ensure_schema` on a fresh file. -/
def dbEmpty : DBState := { reports := [], nextId := 1, blocks := [] }

/-- Well-formedness that SQLite guarantees for the model: every stored report
id is below the next `AUTOINCREMENT` value, and ids are unique. -/
def DBWF (s : DBState) : Prop :=
  (∀ r ∈ s.reports, r.id < s.nextId) ∧ (s.reports.map Report.id).Nodup

/-- `ReportDB.create_report`: serialize the payload, insert a fresh row with
status `Open` and both timestamps set to now, and return the new id. -/
def create_report (s : DBState) (report_type : String) (reporter_id guild_id source_channel_id : Nat)
    (payload : PyJson) (now : Int) : Nat × DBState :=
  let row : Report :=
    { id := s.nextId
      report_type := report_type.toUpper
      reporter_id := reporter_id
      guild_id := guild_id
      source_channel_id := source_channel_id
      staff_message_id := none
      status := "Open"
      payload_json := pyDumps payload
      created_at := now
      updated_at := some now
      ticket_channel_id := none
      resolved_by := none
      resolved_at := none }
  (s.nextId, { s with reports := s.reports ++ [row], nextId := s.nextId + 1 })

/-- `ReportDB.set_staff_message_id`. -/
def set_staff_message_id (s : DBState) (report_id message_id : Nat) : DBState :=
  { s with reports := s.reports.map fun r =>
      if r.id = report_id then { r with staff_message_id := some message_id } else r }

/-- `ReportDB.update_status`: unconditional status write plus `updated_at`
refresh on the matching row. -/
def update_status (s : DBState) (report_id : Nat) (status : String) (now : Int) : DBState :=
  { s with reports := s.reports.map fun r =>
      if r.id = report_id then { r with status := status, updated_at := some now } else r }

/-- `ReportDB.mark_resolved`: one UPDATE that sets status `Resolved` and stamps
`resolved_by`, `resolved_at` and `updated_at`. -/
def mark_resolved (s : DBState) (report_id staff_user_id : Nat) (now : Int) : DBState :=
  { s with reports := s.reports.map fun r =>
      if r.id = report_id then
        { r with status := "Resolved", resolved_by := some staff_user_id,
                 resolved_at := some now, updated_at := some now }
      else r }

/-- `ReportDB.get_by_id` (`SELECT * FROM reports WHERE id=?`, first row). -/
def get_by_id (s : DBState) (report_id : Nat) : Option Report :=
  s.reports.find? (fun r => r.id = report_id)

/-- `ReportDB.get_by_staff_message_id`. -/
def get_by_staff_message_id (s : DBState) (staff_message_id : Nat) : Option Report :=
  s.reports.find? (fun r => r.staff_message_id = some staff_message_id)

/-- Payload recovery in `ReportDB._row_to_report`:
`json.loads(raw_payload) if raw_payload else {}`, with a parse failure also
collapsing to the empty dict. -/
def row_payload (r : Report) : PyJson :=
  if r.payload_json = "" then .obj []
  else
    match pyLoads r.payload_json with
    | some v => v
    | none => .obj []

/-- `ReportDB.get_ticket_channel_id`: `int(val) if val else None`. -/
def get_ticket_channel_id (s : DBState) (report_id : Nat) : Option Nat :=
  match get_by_id s report_id with
  | none => none
  | some r => pyOptId r.ticket_channel_id

/-- `ReportDB.set_ticket_channel_id`. -/
def set_ticket_channel_id (s : DBState) (report_id : Nat) (channel_id : Option Nat) : DBState :=
  { s with reports := s.reports.map fun r =>
      if r.id = report_id then { r with ticket_channel_id := channel_id } else r }

/-- Row order produced by `ORDER BY id DESC`. -/
def idDescOrder (a b : Report) : Prop := b.id ≤ a.id

instance : DecidableRel idDescOrder := fun a b => inferInstanceAs (Decidable (b.id ≤ a.id))

instance : IsTotal Report idDescOrder := ⟨fun a b => Nat.le_total b.id a.id⟩

instance : IsTrans Report idDescOrder := ⟨fun _ _ _ h1 h2 => Nat.le_trans h2 h1⟩

/-- `ReportDB.list_active_reports`: strip and drop empty entries of the
excluded-status set; select the rows of the community, excluding those whose
status is in the set when the set is nonempty; return them ordered by
descending id. -/
def list_active_reports (s : DBState) (guild_id : Nat) (closed_statuses : List String) :
    List Report :=
  let closed := (closed_statuses.map pyStrip).filter (· ≠ "")
  if closed.isEmpty then
    List.insertionSort idDescOrder (s.reports.filter (fun r => r.guild_id = guild_id))
  else
    List.insertionSort idDescOrder
      (s.reports.filter (fun r => r.guild_id = guild_id ∧ r.status ∉ closed))

/-! ## The block store (`bot/db.py`) -/

/-- `ReportDB.block_user`: compute `expires_at` only when the block is not
permanent and the duration is truthy (so `None` and `0` both leave it null),
then upsert on the `(guild_id, user_id)` key. -/
def block_user (s : DBState) (guild_id user_id : Nat) (permanent : Bool)
    (duration_minutes : Option Int) (reason : String) (blocked_by : Option Nat)
    (now : Int) : DBState :=
  let expires_at : Option Int :=
    if !permanent && pyTruthyOptInt duration_minutes then
      some (now + 60 * duration_minutes.getD 0)
    else none
  let row : Block :=
    { guild_id := guild_id, user_id := user_id,
      is_permanent := permanent, expires_at := expires_at,
      reason := reason, blocked_by := blocked_by, created_at := now }
  if s.blocks.any (fun b => b.guild_id = guild_id ∧ b.user_id = user_id) then
    { s with blocks := s.blocks.map fun b =>
        if b.guild_id = guild_id ∧ b.user_id = user_id then row else b }
  else
    { s with blocks := s.blocks ++ [row] }

/-- `ReportDB.unblock_user`: delete the row for the key, reporting whether one
was removed. -/
def unblock_user (s : DBState) (guild_id user_id : Nat) : Bool × DBState :=
  let kept := s.blocks.filter (fun b => ¬(b.guild_id = guild_id ∧ b.user_id = user_id))
  (kept.length < s.blocks.length, { s with blocks := kept })

/-- `ReportDB.is_user_blocked`: look the key up; a permanent block is reported
as such; a temporary block whose parsed expiry is at or before now is removed
and reported as no block; otherwise the block is reported with its expiry. -/
def is_user_blocked (s : DBState) (guild_id user_id : Nat) (now : Int) :
    (Bool × Bool × Option Int × String) × DBState :=
  match s.blocks.find? (fun b => b.guild_id = guild_id ∧ b.user_id = user_id) with
  | none => ((false, false, none, ""), s)
  | some row =>
    if row.is_permanent then ((true, true, none, row.reason), s)
    else
      match row.expires_at with
      | some exp =>
        if exp ≤ now then ((false, false, none, ""), (unblock_user s guild_id user_id).2)
        else ((true, false, some exp, row.reason), s)
      | none => ((true, false, none, row.reason), s)

/-- Row order produced by `ORDER BY created_at DESC`. -/
def createdDescOrder (a b : Block) : Prop := b.created_at ≤ a.created_at

instance : DecidableRel createdDescOrder := fun a b =>
  inferInstanceAs (Decidable (b.created_at ≤ a.created_at))

instance : IsTotal Block createdDescOrder := ⟨fun a b => Int.le_total b.created_at a.created_at⟩

instance : IsTrans Block createdDescOrder := ⟨fun _ _ _ h1 h2 => Int.le_trans h2 h1⟩

/-- `ReportDB.list_blocked_users`: every row of the community ordered by
descending creation time; a pure read, returning the store unchanged. -/
def list_blocked_users (s : DBState) (guild_id : Nat) : List Block × DBState :=
  (List.insertionSort createdDescOrder (s.blocks.filter (fun b => b.guild_id = guild_id)), s)

/-! ## Staff actions (`bot/views.py`)

The chat platform is abstracted into an environment record: which channels the
guild can currently see, whether the bot may manage channels, and the id of
the private channel the platform would allocate for a new ticket (`none` when
creation fails).  A handler returns the new store plus a result describing its
externally visible behaviour: the ephemeral rejection it answered with, if
any, and whether it attempted the one-way direct message to the reporter.
Embed rendering and message editing are display only and are not modelled.
Both handlers are modelled from the point where `_ensure_staff_channel` has
accepted the click and `interaction.message` is present. -/

structure GuildEnv where
  channelOk : Nat → Bool
  botPresent : Bool
  canManageChannels : Bool
  newTicketChannel : Option Nat
deriving Inhabited

/-- Result of a staff button handler. -/
structure ActionResult where
  rejection : Option String
  dmAttempted : Bool
  ticketCreated : Option Nat
deriving DecidableEq, Repr

/-- Statuses the `open_ticket` handler treats as closed
(`CLOSED_STATUSES` at the top of `bot/views.py`). -/
def closedStatuses : List String := ["Resolved", "Can\x27t replicate", "Fixed"]

/-- `ReportActionView.resolved`: look the report up by the staff message id;
if absent answer `Report not found`; otherwise write status `Resolved`, edit
the staff message (display only), send the reporter a direct message, and
clear the ticket reference.  No status check happens on this path. -/
def resolvedHandler (s : DBState) (messageId : Nat) (now : Int) : DBState × ActionResult :=
  match get_by_staff_message_id s messageId with
  | none => (s, { rejection := some "Report not found", dmAttempted := false, ticketCreated := none })
  | some report =>
    let s1 := update_status s report.id "Resolved" now
    let s2 := set_ticket_channel_id s1 report.id none
    (s2, { rejection := none, dmAttempted := true, ticketCreated := none })

/-- `ReportActionView.open_ticket`: look the report up by the staff message
id; reject a missing report, then a closed one (`already closed`); if a ticket
reference is set and its channel still exists, reject with
`Ticket already exists`, and if the channel is gone clear the stale reference
first; then check bot presence and the manage-channels permission, create the
private channel, store its id, and advance the status to `Ticket Open`. -/
def openTicketHandler (s : DBState) (g : GuildEnv) (messageId : Nat) (now : Int) :
    DBState × ActionResult :=
  match get_by_staff_message_id s messageId with
  | none => (s, { rejection := some "Report not found", dmAttempted := false, ticketCreated := none })
  | some report =>
    if pyStrip report.status ∈ closedStatuses then
      (s, { rejection := some "already closed", dmAttempted := false, ticketCreated := none })
    else
      let existing := pyOptId report.ticket_channel_id
      let cleared : Bool × DBState :=
        match existing with
        | some cid => if g.channelOk cid then (true, s) else (false, set_ticket_channel_id s report.id none)
        | none => (false, s)
      if cleared.1 then
        (s, { rejection := some "Ticket already exists", dmAttempted := false, ticketCreated := none })
      else
        let s0 := cleared.2
        if !g.botPresent then
          (s0, { rejection := some "no permission data", dmAttempted := false, ticketCreated := none })
        else if !g.canManageChannels then
          (s0, { rejection := some "missing manage channels", dmAttempted := false, ticketCreated := none })
        else
          match g.newTicketChannel with
          | none =>
            (s0, { rejection := some "channel creation failed", dmAttempted := false, ticketCreated := none })
          | some ch =>
            let s1 := set_ticket_channel_id s0 report.id (some ch)
            let s2 := update_status s1 report.id "Ticket Open" now
            (s2, { rejection := none, dmAttempted := false, ticketCreated := some ch })

/-! ## Reference link validation (`bot/modals.py`)

`urllib.parse.urlparse` is embedded for the three components the validators
read: scheme, netloc and path.  The model reproduces the sanitisation steps of
`urlsplit` (strip C0 controls and spaces at the ends, delete tab, carriage
return and newline everywhere), the scheme split at the first colon when the
prefix is a letter followed by scheme characters, the netloc after `//` up to
the next slash, question mark or hash, and the path up to the first question
mark or hash. -/

/-- Characters `urlsplit` strips from both ends of the URL. -/
def c0OrSpace (c : Char) : Bool := c.toNat ≤ 0x20

/-- Characters `urlsplit` deletes wherever they occur. -/
def strickenUrlByte (c : Char) : Bool := c = '\t' || c = '\r' || c = '\n'

/-- Characters allowed in a scheme after the leading letter. -/
def schemeChar (c : Char) : Bool :=
  c.isAlpha || c.isDigit || c = '+' || c = '-' || c = '.'

/-- ASCII lowercasing, as `str.lower` acts on scheme and host characters. -/
def lowerChar (c : Char) : Char := c.toLower

/-- Split `scheme:rest` at the first colon when the prefix is a valid scheme
(a letter followed by scheme characters); the scheme is lowercased. -/
def splitScheme (cs : List Char) : Option (List Char) × List Char :=
  match cs.findIdx? (· = ':') with
  | none => (none, cs)
  | some i =>
    let front := cs.take i
    match front with
    | [] => (none, cs)
    | c0 :: more =>
      if c0.isAlpha && more.all schemeChar then
        (some (front.map lowerChar), cs.drop (i + 1))
      else (none, cs)

/-- After `//`, the netloc runs to the next `/`, `?` or `#`. -/
def netlocStop (c : Char) : Bool := c = '/' || c = '?' || c = '#'

/-- The path component stops at the query or fragment delimiter. -/
def pathStop (c : Char) : Bool := c = '?' || c = '#'

/-- The `(scheme, netloc, path)` triple of `urllib.parse.urlparse`. -/
def pyUrlparse (url : String) : String × String × String :=
  let cs := (stripEnds c0OrSpace url.toList).filter (fun c => !strickenUrlByte c)
  let (scheme, rest) := splitScheme cs
  let (netloc, rest2) :=
    match rest with
    | '/' :: '/' :: r => (r.takeWhile (fun c => !netlocStop c), r.dropWhile (fun c => !netlocStop c))
    | r => ([], r)
  let path := rest2.takeWhile (fun c => !pathStop c)
  (String.mk (scheme.getD []), String.mk netloc, String.mk path)

/-- `_parse_host_path` of `bot/modals.py`: strip the input, parse it, require
an http or https scheme, lowercase the host and drop a leading `www.`, and
strip whitespace around the path.  Returns `(host, path)`. -/
def parse_host_path (url : String) : Option (String × String) :=
  let u := pyStrip url
  if u = "" then none
  else
    let (scheme, netloc, path) := pyUrlparse u
    if scheme = "http" ∨ scheme = "https" then
      let host := String.mk (netloc.toList.map lowerChar)
      let host :=
        if "www.".toList.isPrefixOf host.toList then String.mk (host.toList.drop 4) else host
      some (host, pyStrip path)
    else none

/-- Python `path.split("/", 1)[-1]`: everything after the first slash, or the
whole string when it has none. -/
def afterFirstSlash (cs : List Char) : List Char :=
  match cs.findIdx? (· = '/') with
  | none => cs
  | some i => cs.drop (i + 1)

/-- `_is_tvdb_series_link`: host `thetvdb.com` and a path that, stripped of
outer slashes, starts with `series/` followed by a nonblank remainder. -/
def is_tvdb_series_link (url : String) : Bool :=
  match parse_host_path url with
  | none => false
  | some (host, path) =>
    if host ≠ "thetvdb.com" then false
    else
      let p := (stripSlashes path).toList
      "series/".toList.isPrefixOf p && (pyStrip (String.mk (afterFirstSlash p))).length > 0

/-- `_is_tmdb_movie_link`: host `themoviedb.org` and a path that, stripped of
outer slashes, starts with `movie/` followed by a nonblank remainder. -/
def is_tmdb_movie_link (url : String) : Bool :=
  match parse_host_path url with
  | none => false
  | some (host, path) =>
    if host ≠ "themoviedb.org" then false
    else
      let p := (stripSlashes path).toList
      "movie/".toList.isPrefixOf p && (pyStrip (String.mk (afterFirstSlash p))).length > 0

/-! ## VOD submission modals (`bot/modals.py`)

A submission carries the four text inputs.  The handler normalises the
quality, validates the reference link, and only then writes the report row and
registers the staff message id.  Message sending is abstracted: the
environment says whether the configured staff channel resolves to a text
channel and which message id the platform assigns to the posted notification. -/

structure SubmitEnv where
  staffChannelOk : Bool
  postedMessageId : Nat
deriving Inhabited

/-- Externally visible outcome of a modal submission. -/
inductive SubmitOutcome where
  | invalidLink : SubmitOutcome
  | staffChannelMissing (reportId : Nat) : SubmitOutcome
  | submitted (reportId : Nat) : SubmitOutcome
deriving DecidableEq, Repr

/-- Quality normalisation shared by both VOD modals: uppercase, and anything
other than FHD or 4K becomes Unknown. -/
def normQuality (quality : String) : String :=
  let q := quality.toUpper
  if q = "FHD" ∨ q = "4K" then q else "Unknown"

/-- Shared tail of both VOD `on_submit` methods after validation: create the
report row, then look the staff channel up; if it is gone answer an error
(the row stays), otherwise post the notification and store its message id. -/
def submitCreate (s : DBState) (env : SubmitEnv) (payload : PyJson)
    (userId guildId channelId : Nat) (now : Int) : DBState × SubmitOutcome :=
  let (rid, s1) := create_report s "vod" userId guildId channelId payload now
  if !env.staffChannelOk then (s1, .staffChannelMissing rid)
  else (set_staff_message_id s1 rid env.postedMessageId, .submitted rid)

/-- `VODTVShowReportModal.on_submit`: normalise quality, strip the reference
link, reject it unless it is a TheTVDB series link (before any storage
write), else persist the payload. -/
def vodTvShowSubmit (s : DBState) (env : SubmitEnv)
    (title reference_link quality issue : String)
    (userId guildId channelId : Nat) (now : Int) : DBState × SubmitOutcome :=
  let q := normQuality quality
  let ref := pyStrip reference_link
  if !is_tvdb_series_link ref then (s, .invalidLink)
  else
    let payload : PyJson := .obj
      [("content_type", .str "tv"), ("title", .str title),
       ("reference_link", .str ref), ("quality", .str q), ("issue", .str issue)]
    submitCreate s env payload userId guildId channelId now

/-- `VODMovieReportModal.on_submit`: same shape with the TMDB movie pattern
and the `movie` content type. -/
def vodMovieSubmit (s : DBState) (env : SubmitEnv)
    (title reference_link quality issue : String)
    (userId guildId channelId : Nat) (now : Int) : DBState × SubmitOutcome :=
  let q := normQuality quality
  let ref := pyStrip reference_link
  if !is_tmdb_movie_link ref then (s, .invalidLink)
  else
    let payload : PyJson := .obj
      [("content_type", .str "movie"), ("title", .str title),
       ("reference_link", .str ref), ("quality", .str q), ("issue", .str issue)]
    submitCreate s env payload userId guildId channelId now

/-! ## Dynamic call binding in the block commands (`bot/cogs/reports.py`)

Two staff commands call the store with signatures it does not have.  The model
captures the Python call protocol at the granularity the claims need: binding
a keyword-only call against a signature fails when a required parameter is
missing or an unknown keyword is supplied, and an attribute lookup fails when
the class defines no such name.  Both failures raise before any SQL runs. -/

/-- Parameters of `ReportDB.block_user` after `self`: three required, three
with defaults. -/
def blockUserRequired : List String := ["guild_id", "user_id", "permanent"]

def blockUserOptional : List String := ["duration_minutes", "reason", "blocked_by"]

/-- The keywords `Reports.reportblock` passes to `db.block_user`. -/
def reportblockCallKeywords : List String :=
  ["guild_id", "user_id", "created_by", "duration_minutes", "reason"]

/-- Keyword-call binding: every required parameter must be supplied, and every
supplied keyword must name a parameter. -/
def kwargsBindOk (required optional supplied : List String) : Bool :=
  required.all (fun p => supplied.contains p) &&
  supplied.all (fun k => required.contains k || optional.contains k)

/-- The method names `ReportDB` defines (`bot/db.py`). -/
def reportDBMethods : List String :=
  ["__init__", "_table_columns", "_ensure_column", "_ensure_schema",
   "_detect_reports_columns", "_get_setting", "_set_setting", "create_report",
   "set_staff_message_id", "update_status", "mark_resolved", "get_by_id",
   "get_report_by_id", "get_by_staff_message_id", "_row_to_report",
   "list_active_reports", "get_ticket_channel_id", "set_ticket_channel_id",
   "get_report_pings_enabled", "toggle_report_pings", "block_user",
   "unblock_user", "is_user_blocked", "list_blocked_users", "set_liveboard",
   "get_liveboard", "list_liveboards", "clear_liveboard"]

/-- Outcome of a staff command invocation. -/
inductive CmdOutcome where
  | ok : CmdOutcome
  | typeError : CmdOutcome
  | attributeError : CmdOutcome
deriving DecidableEq, Repr

/-- `Reports.reportblock` past its guard clauses: the keyword call
`db.block_user(guild_id=..., user_id=..., created_by=..., duration_minutes=...,
reason=...)` binds against the store signature or raises, in which case the
store is untouched.  (Were binding to succeed, the row would be written with
the supplied values; the branch is kept so the model states where the call
would go.) -/
def reportblockCommand (s : DBState) (guildId userId staffId : Nat)
    (duration_minutes : Option Int) (reason : String) (now : Int) : DBState × CmdOutcome :=
  if kwargsBindOk blockUserRequired blockUserOptional reportblockCallKeywords then
    (block_user s guildId userId false duration_minutes reason (some staffId) now, .ok)
  else (s, .typeError)

/-- `Reports.reportblocks` past its guard clauses: `db.list_blocks(...)` is an
attribute lookup on the store; an undefined name raises before any query. -/
def reportblocksCommand (s : DBState) (guildId : Nat) :
    (DBState × List Block) × CmdOutcome :=
  if reportDBMethods.contains "list_blocks" then
    let (rows, s1) := list_blocked_users s guildId
    ((s1, rows), .ok)
  else ((s, []), .attributeError)

/-! ## Module level imports (`bot/cogs/reports.py`, `bot/cogs/panel.py`)

Loading the reports cog executes
`from bot.modals import TVReportModal, VODReportModal`; the VOD button of the
panel executes `from bot.modals import VODReportModal` lazily inside its
callback.  A `from` import succeeds only for names the module binds. -/

/-- The names module `bot.modals` binds at top level: its own definitions and
the names it imports. -/
def modalsModuleNames : List String :=
  ["discord", "urlparse", "ReportDB", "build_staff_embed", "report_subject",
   "try_dm", "ReportActionView", "build_staff_ping", "_parse_host_path",
   "_is_tvdb_series_link", "_is_tmdb_movie_link", "TVReportModal",
   "VODTVShowReportModal", "VODMovieReportModal", "VODTypePickerView",
   "ResolveReportModal"]

/-- A `from bot.modals import ...` statement succeeds iff every requested name
is bound by the module. -/
def importFromModals (names : List String) : Bool :=
  names.all (fun n => modalsModuleNames.contains n)

/-- Whether `bot.cogs.reports` loads: its import line requests both modal
names. -/
def reportsCogLoads : Bool := importFromModals ["TVReportModal", "VODReportModal"]

/-- The slash commands the reports cog would register, available only if the
module loads. -/
def reportsCogCommands : Option (List String) :=
  if reportsCogLoads then
    some ["report-tv", "report-vod", "reportpings", "synccommands",
          "reportblock", "reportunblock", "reportblocks"]
  else none

/-- Whether the lazy import inside the VOD panel button succeeds. -/
def panelVodImportOk : Bool := importFromModals ["VODReportModal"]

/-! ## Concrete stores used to evaluate the handlers -/

/-- A remainder that cannot extend an integer token: empty, or headed by a
character that is neither a digit nor `.`, `e`, `E`.  Every context a dumped
value is read back in (end of document, after a comma, before a closing
bracket or brace) satisfies it. -/
def intStop : List Char → Bool
  | [] => true
  | c :: _ => !(isDig c || c = '.' || c = 'e' || c = 'E')

/-- A report already resolved through the staff button: status `Resolved`,
staff message 10, last touched at instant 5, no audit stamps. -/
def resolvedRow : Report :=
  { id := 1, report_type := "TV", reporter_id := 5, guild_id := 7,
    source_channel_id := 9, staff_message_id := some 10, status := "Resolved",
    payload_json := "", created_at := 1, updated_at := some 5,
    ticket_channel_id := none, resolved_by := none, resolved_at := none }

def c1State : DBState := { reports := [resolvedRow], nextId := 2, blocks := [] }

/-- An open report with staff message 11. -/
def openRow : Report :=
  { id := 1, report_type := "TV", reporter_id := 5, guild_id := 7,
    source_channel_id := 9, staff_message_id := some 11, status := "Open",
    payload_json := "", created_at := 1, updated_at := some 1,
    ticket_channel_id := none, resolved_by := none, resolved_at := none }

def c2State : DBState := { reports := [openRow], nextId := 2, blocks := [] }

/-- The store after blocking member 42 of community 7 non-permanently with a
zero-minute duration at instant 100. -/
def c3State : DBState := block_user dbEmpty 7 42 false (some 0) "spam" (some 9) 100

/-- A permanent block created at instant 10. -/
def permBlockRow : Block :=
  { guild_id := 7, user_id := 1, is_permanent := true, expires_at := none,
    reason := "x", blocked_by := some 9, created_at := 10 }

/-- A temporary block created at instant 20 whose expiry, instant 5, is
already past at instant 100. -/
def expiredBlockRow : Block :=
  { guild_id := 7, user_id := 2, is_permanent := false, expires_at := some 5,
    reason := "y", blocked_by := some 9, created_at := 20 }

def c4State : DBState := { reports := [], nextId := 1, blocks := [permBlockRow, expiredBlockRow] }

/-- Three reports of community 7 (ids 1, 2, 3; id 2 resolved) and one of
community 8, for exercising the active-report listing. -/
def c6State : DBState :=
  { reports :=
      [{ openRow with id := 1, staff_message_id := some 21 },
       { resolvedRow with id := 2, staff_message_id := some 22 },
       { openRow with id := 3, staff_message_id := some 23, status := "Ticket Open" },
       { openRow with id := 4, guild_id := 8, staff_message_id := some 24 }],
    nextId := 5, blocks := [] }

/-- A platform environment for evaluating the ticket handler: every channel
id resolves, the bot is present with manage-channels, and the platform would
allocate channel 99 for a new ticket. -/
def c5Env : GuildEnv :=
  { channelOk := fun _ => true, botPresent := true,
    canManageChannels := true, newTicketChannel := some 99 }

/-- A sample structured payload, shaped like the one the TV-show VOD modal
persists. -/
def pTest : PyJson :=
  .obj [("content_type", .str "tv"), ("title", .str "Family Guy S02E03"),
        ("reference_link", .str "https://www.thetvdb.com/series/family-guy"),
        ("quality", .str "FHD"), ("issue", .str "episode 3 skips, \"S02E03\"")]

/-! ## Theorems -/

/-- Looking a row up by id commutes with an id-preserving update of the row
with that id: the find-after-map of every store mutation. -/
theorem find_update_by_id (l : List Report) (rid : Nat) (f : Report → Report)
    (hf : ∀ r, (f r).id = r.id) :
    (l.map fun r => if r.id = rid then f r else r).find? (fun r => r.id = rid)
      = (l.find? (fun r => r.id = rid)).map f := by
  induction l with
  | nil => rfl
  | cons a l ih =>
    by_cases h : a.id = rid
    · simp [List.find?_cons, h, hf]
    · simp [List.find?_cons, h, ih]

/-- C10: the report-filing cog imports `VODReportModal` from the modals
module, but the modals module binds no such name (only `VODTVShowReportModal`
and `VODMovieReportModal`), so loading the cog fails, both report-filing
commands stay undefined, and the lazy import in the panel VOD button fails
the same way. -/
theorem C10_vod_modal_import_fails :
    modalsModuleNames.contains "VODReportModal" = false ∧
    modalsModuleNames.contains "VODTVShowReportModal" = true ∧
    modalsModuleNames.contains "VODMovieReportModal" = true ∧
    reportsCogLoads = false ∧ reportsCogCommands = none ∧
    panelVodImportOk = false := by
  refine ⟨by decide, by decide, by decide, by decide, ?_, by decide⟩
  simp [reportsCogCommands, show reportsCogLoads = false from by decide]

/-- C9: the staff block command calls `block_user` without the required
`permanent` parameter and with the unknown keyword `created_by`, and the
block-list command calls the undefined method `list_blocks`; both raise
before touching storage, so the store is returned unchanged with the
corresponding error. -/
theorem C9_block_commands_raise_before_storage :
    kwargsBindOk blockUserRequired blockUserOptional reportblockCallKeywords = false ∧
    reportblockCallKeywords.contains "permanent" = false ∧
    blockUserOptional.contains "created_by" = false ∧
    reportDBMethods.contains "list_blocks" = false ∧
    ∀ (s : DBState) (g u st : Nat) (d : Option Int) (reason : String) (now : Int),
      reportblockCommand s g u st d reason now = (s, .typeError) ∧
      reportblocksCommand s g = ((s, []), .attributeError) := by
  refine ⟨by decide, by decide, by decide, by decide, ?_⟩
  intro s g u st d reason now
  constructor
  · simp [reportblockCommand,
      show kwargsBindOk blockUserRequired blockUserOptional reportblockCallKeywords = false from
        by decide]
  · simp only [reportblocksCommand]
    rw [if_neg (by decide)]

/-- C3 counterexample: blocking member 42 of community 7 with permanent false
and a zero-minute duration, then reading `is_user_blocked` at the very same
instant, reports the member as still blocked (temporarily, with no expiry)
and leaves the row in place, against the claim that the read returns
unblocked and deletes the row. -/
theorem C3_counterexample :
    (is_user_blocked c3State 7 42 100).1 = (true, false, none, "spam") ∧
    (is_user_blocked c3State 7 42 100).2 = c3State ∧
    c3State.blocks ≠ [] := by decide

/-- C4 counterexample: community 7 holds a permanent block created at instant
10 and an expired temporary block created at instant 20; the listing returns
the temporary block first (creation order, not permanence), includes the
expired row, and deletes nothing. -/
theorem C4_counterexample :
    list_blocked_users c4State 7 = ([expiredBlockRow, permBlockRow], c4State) ∧
    expiredBlockRow.is_permanent = false ∧
    permBlockRow.is_permanent = true ∧
    expiredBlockRow.expires_at = some 5 ∧ ((5 : Int) ≤ 100) ∧
    expiredBlockRow ∈ (list_blocked_users c4State 7).2.blocks := by decide

/-- C1 counterexample: with report 1 already `Resolved` (staff message 10,
last touched at instant 5), a further staff Resolved click at instant 7 is
not rejected: the handler answers no error, attempts the reporter direct
message again, and rewrites the stored record (its `updated_at` changes). -/
theorem C1_counterexample :
    (resolvedHandler c1State 10 7).2.rejection = none ∧
    (resolvedHandler c1State 10 7).2.dmAttempted = true ∧
    (resolvedHandler c1State 10 7).1 ≠ c1State := by decide

/-- C2 counterexample: resolving the open report 1 through the staff Resolved
button leaves `resolved_by` and `resolved_at` empty even though the status
becomes `Resolved`: the handler calls `update_status`, not `mark_resolved`. -/
theorem C2_counterexample :
    get_by_id (resolvedHandler c2State 11 7).1 1 =
      some { openRow with status := "Resolved", updated_at := some 7 } ∧
    ((resolvedHandler c2State 11 7).1.reports.map Report.resolved_by = [none]) ∧
    ((resolvedHandler c2State 11 7).1.reports.map Report.resolved_at = [none]) := by decide

/-- C1 (amended): a second staff Resolved action on an already-Resolved
report is applied, not rejected: the handler answers no error, rewrites the
matching row (status stays `Resolved`, `updated_at` is refreshed to now, the
ticket reference is cleared) while leaving `resolved_by`/`resolved_at` as
stored, and attempts the reporter notification again; the `already closed`
rejection exists only on the open-ticket action. -/
theorem C1_amended_second_resolve_applies (s : DBState) (g : GuildEnv)
    (msgId : Nat) (now : Int) (r : Report)
    (hfind : get_by_staff_message_id s msgId = some r)
    (hres : r.status = "Resolved") :
    (resolvedHandler s msgId now).2.rejection = none ∧
    (resolvedHandler s msgId now).2.dmAttempted = true ∧
    (resolvedHandler s msgId now).1.reports
      = s.reports.map (fun x => if x.id = r.id then
          { x with status := "Resolved", updated_at := some now,
                   ticket_channel_id := none }
        else x) ∧
    openTicketHandler s g msgId now
      = (s, { rejection := some "already closed", dmAttempted := false,
              ticketCreated := none }) := by
  refine ⟨?_, ?_, ?_, ?_⟩
  · simp [resolvedHandler, hfind]
  · simp [resolvedHandler, hfind]
  · simp only [resolvedHandler, hfind, update_status, set_ticket_channel_id,
      List.map_map]
    refine List.map_congr_left ?_
    intro x _
    by_cases hx : x.id = r.id <;> simp [hx, Function.comp]
  · simp only [openTicketHandler, hfind]
    rw [if_pos (by rw [hres]; decide)]

/-- C1 witness: the amended statement evaluated on the store holding the
already-resolved report 1. -/
theorem C1_witness :
    get_by_staff_message_id c1State 10 = some resolvedRow ∧
    resolvedRow.status = "Resolved" ∧
    ((resolvedHandler c1State 10 7).2.rejection = none ∧
     (resolvedHandler c1State 10 7).2.dmAttempted = true ∧
     (resolvedHandler c1State 10 7).1.reports
       = c1State.reports.map (fun x => if x.id = resolvedRow.id then
           { x with status := "Resolved", updated_at := some 7,
                    ticket_channel_id := none }
         else x) ∧
     openTicketHandler c1State c5Env 10 7
       = (c1State, { rejection := some "already closed", dmAttempted := false,
                     ticketCreated := none })) :=
  ⟨by decide, by decide,
   C1_amended_second_resolve_applies c1State c5Env 10 7 resolvedRow (by decide) (by decide)⟩

/-- C2 (amended): the store composite `mark_resolved` does stamp
`resolved_by`/`resolved_at` together with the status, but the staff Resolved
action resolves through `update_status`, which passes the stored audit fields
through untouched: a report resolved by the button carries whatever
`resolved_by`/`resolved_at` it already had (for rows created by
`create_report`, nothing). -/
theorem C2_amended_only_mark_resolved_stamps :
    (∀ (s : DBState) (rid uid : Nat) (now : Int),
      get_by_id (mark_resolved s rid uid now) rid
        = (get_by_id s rid).map (fun r =>
            { r with status := "Resolved", resolved_by := some uid,
                     resolved_at := some now, updated_at := some now })) ∧
    (∀ (s : DBState) (msgId : Nat) (now : Int) (r : Report),
      get_by_staff_message_id s msgId = some r →
      get_by_id (resolvedHandler s msgId now).1 r.id
        = (get_by_id s r.id).map (fun x =>
            { x with status := "Resolved", updated_at := some now,
                     ticket_channel_id := none })) := by
  constructor
  · intro s rid uid now
    simp only [get_by_id, mark_resolved]
    exact find_update_by_id s.reports rid _ (fun r => rfl)
  · intro s msgId now r hfind
    simp only [resolvedHandler, hfind, get_by_id, update_status,
      set_ticket_channel_id, List.map_map]
    have hcomp :
        ((fun x : Report => if x.id = r.id then { x with ticket_channel_id := none } else x) ∘
         (fun x : Report => if x.id = r.id then { x with status := "Resolved", updated_at := some now } else x))
        = fun x : Report => if x.id = r.id then
            { x with status := "Resolved", updated_at := some now,
                     ticket_channel_id := none }
          else x := by
      funext x
      by_cases hx : x.id = r.id <;> simp [hx, Function.comp]
    rw [hcomp]
    exact find_update_by_id s.reports r.id _ (fun x => rfl)

/-- C2 witness: the amended statement evaluated on the store holding the open
report 1, resolved through the staff button at instant 7, and the stamping
composite evaluated on the same store. -/
theorem C2_witness :
    (get_by_id (mark_resolved c2State 1 77 9) 1
      = (get_by_id c2State 1).map (fun r =>
          { r with status := "Resolved", resolved_by := some 77,
                   resolved_at := some 9, updated_at := some 9 })) ∧
    get_by_staff_message_id c2State 11 = some openRow ∧
    (get_by_id (resolvedHandler c2State 11 7).1 openRow.id
      = (get_by_id c2State openRow.id).map (fun x =>
          { x with status := "Resolved", updated_at := some 7,
                   ticket_channel_id := none })) :=
  ⟨C2_amended_only_mark_resolved_stamps.1 c2State 1 77 9, by decide,
   C2_amended_only_mark_resolved_stamps.2 c2State 11 7 openRow (by decide)⟩

/-- Looking the `(guild, user)` key up after the overwrite branch of the
upsert finds the fresh row. -/
theorem find_overwrite (bs : List Block) (g u : Nat) (row : Block)
    (h1 : row.guild_id = g) (h2 : row.user_id = u)
    (hany : bs.any (fun b => b.guild_id = g ∧ b.user_id = u) = true) :
    (bs.map fun b => if b.guild_id = g ∧ b.user_id = u then row else b).find?
      (fun b => b.guild_id = g ∧ b.user_id = u) = some row := by
  induction bs with
  | nil => simp at hany
  | cons b bs ih =>
    by_cases hb : b.guild_id = g ∧ b.user_id = u
    · rw [List.map_cons, if_pos hb, List.find?_cons_of_pos _ (by simp [h1, h2])]
    · have htail : bs.any (fun b => b.guild_id = g ∧ b.user_id = u) = true := by
        simp only [List.any_cons, Bool.or_eq_true, decide_eq_true_eq] at hany
        rcases hany with h | h
        · exact absurd h hb
        · exact h
      rw [List.map_cons, if_neg hb, List.find?_cons_of_neg _ (by simpa using hb)]
      exact ih htail

/-- Looking the key up after the insert branch of the upsert finds the fresh
row at the end. -/
theorem find_append_new (bs : List Block) (g u : Nat) (row : Block)
    (h1 : row.guild_id = g) (h2 : row.user_id = u)
    (hnone : bs.any (fun b => b.guild_id = g ∧ b.user_id = u) = false) :
    (bs ++ [row]).find? (fun b => b.guild_id = g ∧ b.user_id = u) = some row := by
  induction bs with
  | nil =>
    rw [List.nil_append, List.find?_cons_of_pos _ (by simp [h1, h2])]
  | cons b bs ih =>
    simp only [List.any_cons, Bool.or_eq_false_iff, decide_eq_false_iff_not] at hnone
    rw [List.cons_append, List.find?_cons_of_neg _ (by simpa using hnone.1)]
    exact ih hnone.2

/-- After `block_user`, the key resolves to exactly the row the upsert wrote
(in particular, a non-permanent block with falsy duration has no expiry). -/
theorem block_user_find (s : DBState) (g u : Nat) (perm : Bool) (d : Option Int)
    (reason : String) (bb : Option Nat) (now : Int) :
    (block_user s g u perm d reason bb now).blocks.find?
        (fun b => b.guild_id = g ∧ b.user_id = u)
      = some { guild_id := g, user_id := u, is_permanent := perm,
               expires_at :=
                 if !perm && pyTruthyOptInt d then some (now + 60 * d.getD 0) else none,
               reason := reason, blocked_by := bb, created_at := now } := by
  simp only [block_user]
  by_cases hany : s.blocks.any (fun b => b.guild_id = g ∧ b.user_id = u) = true
  · rw [if_pos hany]
    exact find_overwrite s.blocks g u _ rfl rfl hany
  · rw [if_neg hany]
    exact find_append_new s.blocks g u _ rfl rfl (by revert hany; cases s.blocks.any (fun b => b.guild_id = g ∧ b.user_id = u) <;> simp)

/-- C3 (amended): blocking non-permanently with a zero-minute duration stores
a block with no expiry at all (the truthiness test on the duration skips the
expiry computation), so an immediate `is_user_blocked` reports the member as
temporarily blocked with no expiry and the row survives the read.  The
inclusive expiry boundary holds only for rows that do carry an expiry: a
stored `expires_at` at or before now makes the read report unblocked and
delete the row. -/
theorem C3_amended_zero_duration_still_blocks :
    (∀ (s : DBState) (g u : Nat) (reason : String) (bb : Option Nat) (now t : Int),
      is_user_blocked (block_user s g u false (some 0) reason bb now) g u t
        = ((true, false, none, reason), block_user s g u false (some 0) reason bb now)) ∧
    (∀ (s : DBState) (g u : Nat) (row : Block) (t now : Int),
      s.blocks.find? (fun b => b.guild_id = g ∧ b.user_id = u) = some row →
      row.is_permanent = false → row.expires_at = some t → t ≤ now →
      is_user_blocked s g u now = ((false, false, none, ""), (unblock_user s g u).2) ∧
      row ∉ (is_user_blocked s g u now).2.blocks) := by
  constructor
  · intro s g u reason bb now t
    have hfind := block_user_find s g u false (some 0) reason bb now
    simp only [pyTruthyOptInt, Bool.not_false, Bool.true_and] at hfind
    rw [show ((0 : Int) != 0) = false from rfl, if_neg (by simp)] at hfind
    simp only [is_user_blocked, hfind]
    simp
  · intro s g u row t now hfind hperm hexp hle
    have hmain : is_user_blocked s g u now = ((false, false, none, ""), (unblock_user s g u).2) := by
      simp only [is_user_blocked, hfind, hperm, hexp]
      simp [hle]
    refine ⟨hmain, ?_⟩
    rw [hmain]
    have hkey := List.find?_some hfind
    simp only [decide_eq_true_eq] at hkey
    simp only [unblock_user]
    intro hmem
    have hnk := (List.mem_filter.mp hmem).2
    simp only [decide_eq_true_eq] at hnk
    exact hnk hkey

/-- C3 witness: the amended statement evaluated on the zero-duration block of
member 42 and on the expired temporary block of member 2. -/
theorem C3_witness :
    (is_user_blocked (block_user dbEmpty 7 42 false (some 0) "spam" (some 9) 100) 7 42 100
      = ((true, false, none, "spam"), block_user dbEmpty 7 42 false (some 0) "spam" (some 9) 100)) ∧
    (c4State.blocks.find? (fun b => b.guild_id = 7 ∧ b.user_id = 2) = some expiredBlockRow ∧
     expiredBlockRow.is_permanent = false ∧ expiredBlockRow.expires_at = some 5 ∧ (5 : Int) ≤ 100 ∧
     (is_user_blocked c4State 7 2 100 = ((false, false, none, ""), (unblock_user c4State 7 2).2) ∧
      expiredBlockRow ∉ (is_user_blocked c4State 7 2 100).2.blocks)) :=
  ⟨C3_amended_zero_duration_still_blocks.1 dbEmpty 7 42 "spam" (some 9) 100 100,
   by decide, by decide, by decide, by decide,
   C3_amended_zero_duration_still_blocks.2 c4State 7 2 expiredBlockRow 5 100
     (by decide) (by decide) (by decide) (by decide)⟩

/-- C4 (amended): listing a community's blocks returns exactly its stored
rows — permanent or temporary, expired or not — ordered by descending
creation time, and the read performs no cleanup: the store comes back
unchanged and no row is deleted. -/
theorem C4_amended_list_is_by_creation_time (s : DBState) (gid : Nat) :
    (list_blocked_users s gid).2 = s ∧
    (∀ b, b ∈ (list_blocked_users s gid).1 ↔ b ∈ s.blocks ∧ b.guild_id = gid) ∧
    (list_blocked_users s gid).1.Pairwise createdDescOrder := by
  refine ⟨rfl, ?_, ?_⟩
  · intro b
    simp only [list_blocked_users, List.mem_insertionSort, List.mem_filter,
      decide_eq_true_eq]
  · exact List.sorted_insertionSort createdDescOrder _

/-- C6: with the excluded set containing exactly `Resolved`, the active
listing of a community returns precisely that community's non-Resolved
reports — never a Resolved one, and all of the others — in strictly
descending id order (ids are unique, as the primary key guarantees). -/
theorem C6_list_active_excludes_resolved (s : DBState) (gid : Nat)
    (h : (s.reports.map Report.id).Nodup) :
    (∀ r ∈ list_active_reports s gid ["Resolved"],
      r.guild_id = gid ∧ r.status ≠ "Resolved") ∧
    (∀ r ∈ s.reports, r.guild_id = gid → r.status ≠ "Resolved" →
      r ∈ list_active_reports s gid ["Resolved"]) ∧
    (list_active_reports s gid ["Resolved"]).Pairwise (fun a b => b.id < a.id) := by
  have hcl : ((["Resolved"].map pyStrip).filter (· ≠ "")) = ["Resolved"] := by decide
  have heq : list_active_reports s gid ["Resolved"]
      = List.insertionSort idDescOrder
          (s.reports.filter fun r =>
            r.guild_id = gid ∧ r.status ∉ (["Resolved"] : List String)) := by
    simp only [list_active_reports, hcl]
    rfl
  refine ⟨?_, ?_, ?_⟩
  · intro r hr
    rw [heq] at hr
    rw [List.mem_insertionSort, List.mem_filter] at hr
    have := hr.2
    simp only [decide_eq_true_eq, List.mem_singleton] at this
    exact this
  · intro r hr hg hst
    rw [heq, List.mem_insertionSort, List.mem_filter]
    refine ⟨hr, ?_⟩
    simp only [decide_eq_true_eq, List.mem_singleton]
    exact ⟨hg, hst⟩
  · have hs : (list_active_reports s gid ["Resolved"]).Pairwise idDescOrder := by
      rw [heq]; exact List.sorted_insertionSort idDescOrder _
    have hsub : (s.reports.filter fun r =>
        r.guild_id = gid ∧ r.status ∉ (["Resolved"] : List String)).Sublist s.reports :=
      List.filter_sublist _
    have hnds : ((s.reports.filter fun r =>
        r.guild_id = gid ∧ r.status ∉ (["Resolved"] : List String)).map Report.id).Nodup :=
      List.Nodup.sublist (hsub.map Report.id) h
    have hperm := List.perm_insertionSort idDescOrder
      (s.reports.filter fun r =>
        r.guild_id = gid ∧ r.status ∉ (["Resolved"] : List String))
    have hndout : ((list_active_reports s gid ["Resolved"]).map Report.id).Nodup := by
      rw [heq]
      exact ((hperm.map Report.id).nodup_iff).mpr hnds
    have hpne : (list_active_reports s gid ["Resolved"]).Pairwise
        (fun a b => a.id ≠ b.id) := List.pairwise_map.mp hndout
    exact (hs.and hpne).imp
      (fun hab => Nat.lt_of_le_of_ne hab.1 (fun e => hab.2 e.symm))

/-- C6 witness: the listing evaluated on a store holding reports 1 (Open),
2 (Resolved) and 3 (Ticket Open) of community 7 and report 4 of community 8,
with id uniqueness discharged by computation. -/
theorem C6_witness :
    (c6State.reports.map Report.id).Nodup ∧
    ((∀ r ∈ list_active_reports c6State 7 ["Resolved"],
       r.guild_id = 7 ∧ r.status ≠ "Resolved") ∧
     (∀ r ∈ c6State.reports, r.guild_id = 7 → r.status ≠ "Resolved" →
       r ∈ list_active_reports c6State 7 ["Resolved"]) ∧
     (list_active_reports c6State 7 ["Resolved"]).Pairwise (fun a b => b.id < a.id)) :=
  ⟨by decide, C6_list_active_excludes_resolved c6State 7 (by decide)⟩

/-- C5: with the staff gate passed, the report open, the bot present with
manage-channels, and the platform willing to allocate a channel: when the
stored ticket reference points at a channel that still exists the action is
rejected with `Ticket already exists` and the store is untouched; when the
reference is clear — or points at a channel that no longer exists — a new
ticket is created, and the stale reference never blocks it: the stored row
ends with the fresh channel reference and status `Ticket Open`. -/
theorem C5_open_ticket_guard (s : DBState) (g : GuildEnv) (msgId : Nat)
    (now : Int) (r : Report) (ch : Nat)
    (hfind : get_by_staff_message_id s msgId = some r)
    (hopen : pyStrip r.status ∉ closedStatuses)
    (hbot : g.botPresent = true)
    (hperm : g.canManageChannels = true)
    (hcreate : g.newTicketChannel = some ch) :
    (∀ t, pyOptId r.ticket_channel_id = some t → g.channelOk t = true →
      openTicketHandler s g msgId now
        = (s, { rejection := some "Ticket already exists", dmAttempted := false,
                ticketCreated := none })) ∧
    ((pyOptId r.ticket_channel_id = none ∨
        (∃ t, pyOptId r.ticket_channel_id = some t ∧ g.channelOk t = false)) →
      (openTicketHandler s g msgId now).2
        = { rejection := none, dmAttempted := false, ticketCreated := some ch } ∧
      get_by_id (openTicketHandler s g msgId now).1 r.id
        = (get_by_id s r.id).map (fun x =>
            { x with ticket_channel_id := some ch, status := "Ticket Open",
                     updated_at := some now })) := by
  constructor
  · intro t ht hok
    simp only [openTicketHandler, hfind, ht, hok]
    rw [if_neg hopen]
    simp
  · intro hcase
    have hcomp2 :
        ((fun x : Report => if x.id = r.id then
            { x with status := "Ticket Open", updated_at := some now } else x) ∘
         (fun x : Report => if x.id = r.id then
            { x with ticket_channel_id := some ch } else x))
        = fun x : Report => if x.id = r.id then
            { x with ticket_channel_id := some ch, status := "Ticket Open",
                     updated_at := some now }
          else x := by
      funext x
      by_cases hx : x.id = r.id <;> simp [hx, Function.comp]
    rcases hcase with hnone | ⟨t, ht, hok⟩
    · simp only [openTicketHandler, hfind, hnone]
      rw [if_neg hopen]
      simp only [hbot, hperm, hcreate, Bool.not_true, Bool.false_eq_true,
        if_false, ite_false]
      refine ⟨by trivial, ?_⟩
      simp only [get_by_id, update_status, set_ticket_channel_id, List.map_map, hcomp2]
      exact find_update_by_id s.reports r.id _ (fun x => rfl)
    · have hcomp3 :
          ((fun x : Report => if x.id = r.id then
              { x with ticket_channel_id := some ch } else x) ∘
           (fun x : Report => if x.id = r.id then
              { x with ticket_channel_id := none } else x))
          = fun x : Report => if x.id = r.id then
              { x with ticket_channel_id := some ch } else x := by
        funext x
        by_cases hx : x.id = r.id <;> simp [hx, Function.comp]
      simp only [openTicketHandler, hfind, ht, hok]
      rw [if_neg hopen]
      simp only [hbot, hperm, hcreate, Bool.not_true, Bool.false_eq_true,
        if_false, ite_false]
      refine ⟨by trivial, ?_⟩
      have hcompAll :
          ((fun x : Report => if x.id = r.id then
              { x with status := "Ticket Open", updated_at := some now } else x) ∘
           ((fun x : Report => if x.id = r.id then
              { x with ticket_channel_id := some ch } else x) ∘
            (fun x : Report => if x.id = r.id then
              { x with ticket_channel_id := none } else x)))
          = fun x : Report => if x.id = r.id then
              { x with ticket_channel_id := some ch, status := "Ticket Open",
                       updated_at := some now }
            else x := by
        funext x
        by_cases hx : x.id = r.id <;> simp [hx, Function.comp]
      simp only [get_by_id, update_status, set_ticket_channel_id, List.map_map,
        hcompAll]
      exact find_update_by_id s.reports r.id _ (fun x => rfl)

/-- C5 witness: the ticket guard evaluated on the open report 1 (clear ticket
reference) with a platform that allocates channel 99. -/
theorem C5_witness :
    get_by_staff_message_id c2State 11 = some openRow ∧
    pyStrip openRow.status ∉ closedStatuses ∧
    ((∀ t, pyOptId openRow.ticket_channel_id = some t → c5Env.channelOk t = true →
       openTicketHandler c2State c5Env 11 7
         = (c2State, { rejection := some "Ticket already exists",
                       dmAttempted := false, ticketCreated := none })) ∧
     ((pyOptId openRow.ticket_channel_id = none ∨
         (∃ t, pyOptId openRow.ticket_channel_id = some t ∧
           c5Env.channelOk t = false)) →
       (openTicketHandler c2State c5Env 11 7).2
         = { rejection := none, dmAttempted := false, ticketCreated := some 99 } ∧
       get_by_id (openTicketHandler c2State c5Env 11 7).1 openRow.id
         = (get_by_id c2State openRow.id).map (fun x =>
             { x with ticket_channel_id := some 99, status := "Ticket Open",
                      updated_at := some 7 }))) :=
  ⟨by decide, by decide,
   C5_open_ticket_guard c2State c5Env 11 7 openRow 99 (by decide) (by decide)
     rfl rfl rfl⟩

/-- C8: a VOD submission whose reference link fails its pattern — a TheTVDB
series link for TV shows, a TMDB movie link for movies — is answered with the
validation error before any storage write: the store is returned exactly as
it was, so no report row exists for the rejected submission. -/
theorem C8_invalid_link_rejected_before_write (s : DBState) (env : SubmitEnv)
    (t1 ref1 q1 i1 t2 ref2 q2 i2 : String) (u gid cid : Nat) (now : Int)
    (h1 : is_tvdb_series_link (pyStrip ref1) = false)
    (h2 : is_tmdb_movie_link (pyStrip ref2) = false) :
    vodTvShowSubmit s env t1 ref1 q1 i1 u gid cid now = (s, .invalidLink) ∧
    vodMovieSubmit s env t2 ref2 q2 i2 u gid cid now = (s, .invalidLink) := by
  constructor
  · simp [vodTvShowSubmit, h1]
  · simp [vodMovieSubmit, h2]

/-- C8 witness: both modals evaluated on an IMDb link, which matches neither
pattern, on the empty store. -/
theorem C8_witness :
    is_tvdb_series_link (pyStrip "https://www.imdb.com/title/tt0898266/") = false ∧
    is_tmdb_movie_link (pyStrip "https://www.imdb.com/title/tt0898266/") = false ∧
    (vodTvShowSubmit dbEmpty { staffChannelOk := true, postedMessageId := 50 }
        "Family Guy S02E03" "https://www.imdb.com/title/tt0898266/" "FHD" "buffering"
        5 7 9 100 = (dbEmpty, .invalidLink) ∧
     vodMovieSubmit dbEmpty { staffChannelOk := true, postedMessageId := 50 }
        "2012" "https://www.imdb.com/title/tt0898266/" "4K" "no audio"
        5 7 9 100 = (dbEmpty, .invalidLink)) :=
  ⟨by decide, by decide,
   C8_invalid_link_rejected_before_write dbEmpty
     { staffChannelOk := true, postedMessageId := 50 }
     "Family Guy S02E03" "https://www.imdb.com/title/tt0898266/" "FHD" "buffering"
     "2012" "https://www.imdb.com/title/tt0898266/" "4K" "no audio"
     5 7 9 100 (by decide) (by decide)⟩

/-! ### Round trip of the payload codec -/

/-- Rebuilding a string from its own characters is the identity. -/
theorem string_mk_toList (s : String) : String.mk s.toList = s := rfl

/-- The lowercase hex digit characters decode to their values. -/
theorem hexDigVal_hexDig (n : Nat) (h : n < 16) : hexDigVal (hexDig n) = some n := by
  interval_cases n <;> decide

/-- One step of the string scanner on a nonempty input, as a rewrite rule. -/
theorem scanStr_cons (acc : List Char) (c : Char) (rest : List Char) :
    scanStr acc (c :: rest)
      = if c = '"' then some (String.mk acc.reverse, rest)
        else if c = '\\' then
          (match rest with
           | [] => none
           | e :: r =>
             if e = 'u' then
               match r with
               | a :: b :: c2 :: d :: r2 =>
                 (match hexQuad a b c2 d with
                  | some n => scanStr (Char.ofNat n :: acc) r2
                  | none => none)
               | _ => none
             else
               match escDecode e with
               | some ec => scanStr (ec :: acc) r
               | none => none)
        else if c.toNat < 0x20 then none
        else scanStr (c :: acc) rest := by
  rw [scanStr.eq_def]

/-- The scanner undoes a `\uXXXX` escape through the hex decoder. -/
theorem scanStr_unicode (acc rest : List Char) (x1 x2 x3 x4 : Char) :
    scanStr acc ('\\' :: 'u' :: x1 :: x2 :: x3 :: x4 :: rest)
      = match hexQuad x1 x2 x3 x4 with
        | some n => scanStr (Char.ofNat n :: acc) rest
        | none => none := by
  rw [scanStr_cons]
  rfl

/-- Reading one escaped character undoes the escape. -/
theorem scanStr_esc (c : Char) (acc rest : List Char) :
    scanStr acc (escChar c ++ rest) = scanStr (c :: acc) rest := by
  by_cases h1 : c = '\\'
  · subst h1
    rw [show escChar '\\' ++ rest = '\\' :: '\\' :: rest from rfl, scanStr_cons]
    rfl
  by_cases h2 : c = '"'
  · subst h2
    rw [show escChar '"' ++ rest = '\\' :: '"' :: rest from rfl, scanStr_cons]
    rfl
  by_cases h3 : c = '\n'
  · subst h3
    rw [show escChar '\n' ++ rest = '\\' :: 'n' :: rest from rfl, scanStr_cons]
    rfl
  by_cases h4 : c = '\t'
  · subst h4
    rw [show escChar '\t' ++ rest = '\\' :: 't' :: rest from rfl, scanStr_cons]
    rfl
  by_cases h5 : c = '\r'
  · subst h5
    rw [show escChar '\r' ++ rest = '\\' :: 'r' :: rest from rfl, scanStr_cons]
    rfl
  by_cases h6 : c = '\x08'
  · subst h6
    rw [show escChar '\x08' ++ rest = '\\' :: 'b' :: rest from rfl, scanStr_cons]
    rfl
  by_cases h7 : c = '\x0c'
  · subst h7
    rw [show escChar '\x0c' ++ rest = '\\' :: 'f' :: rest from rfl, scanStr_cons]
    rfl
  by_cases h8 : c.toNat < 0x20
  · have e : escChar c =
        '\\' :: 'u' :: '0' :: '0' :: [hexDig (c.toNat / 16), hexDig (c.toNat % 16)] := by
      simp [escChar, h1, h2, h3, h4, h5, h6, h7, h8]
    rw [e]
    simp only [List.cons_append, List.nil_append]
    rw [scanStr_unicode]
    have hq : hexQuad '0' '0' (hexDig (c.toNat / 16)) (hexDig (c.toNat % 16))
        = some c.toNat := by
      have hhi : hexDigVal (hexDig (c.toNat / 16)) = some (c.toNat / 16) :=
        hexDigVal_hexDig _ (by omega)
      have hlo : hexDigVal (hexDig (c.toNat % 16)) = some (c.toNat % 16) :=
        hexDigVal_hexDig _ (by omega)
      simp only [hexQuad, hhi, hlo, show hexDigVal '0' = some 0 from rfl,
        Option.bind_eq_bind, Option.some_bind, Option.pure_def]
      congr 1
      omega
    rw [hq]
    simp only [Char.ofNat_toNat]
  · have e : escChar c = [c] := by
      simp [escChar, h1, h2, h3, h4, h5, h6, h7, h8]
    rw [e]
    show scanStr acc (c :: rest) = scanStr (c :: acc) rest
    rw [scanStr_cons]
    rw [if_neg h2, if_neg h1, if_neg h8]

/-- Scanning an escaped character run stops exactly at the closing quote and
returns the accumulated text. -/
theorem scanStr_run (s : List Char) : ∀ (acc rest : List Char),
    scanStr acc (s.flatMap escChar ++ '"' :: rest)
      = some (String.mk (acc.reverse ++ s), rest) := by
  induction s with
  | nil =>
    intro acc rest
    rw [List.flatMap_nil, List.nil_append, scanStr_cons, if_pos rfl]
    simp
  | cons c s ih =>
    intro acc rest
    rw [List.flatMap_cons, List.append_assoc, scanStr_esc, ih]
    simp

/-- Scanning a rendered string literal body recovers the string. -/
theorem scanStr_strLit (s : String) (rest : List Char) :
    scanStr [] (s.toList.flatMap escChar ++ '"' :: rest) = some (s, rest) := by
  rw [scanStr_run]
  simp [string_mk_toList]

/-- Enough fuel makes the fuel parameter irrelevant. -/
theorem natDigsF_congr : ∀ (f1 n : Nat), n < f1 → ∀ f2, n < f2 →
    natDigsF f1 n = natDigsF f2 n := by
  intro f1
  induction f1 with
  | zero => intro n h; omega
  | succ a ih =>
    intro n hn f2 hf2
    cases f2 with
    | zero => omega
    | succ b =>
      rw [natDigsF, natDigsF]
      by_cases h10 : n < 10
      · rw [if_pos h10, if_pos h10]
      · rw [if_neg h10, if_neg h10]
        have hdiv : n / 10 < n := Nat.div_lt_self (by omega) (by omega)
        rw [ih (n / 10) (by omega) b (by omega)]

/-- The one-step unfolding of the decimal rendering. -/
theorem natDigs_unfold (n : Nat) :
    natDigs n = if n < 10 then [Char.ofNat ('0'.toNat + n)]
                else natDigs (n / 10) ++ [Char.ofNat ('0'.toNat + n % 10)] := by
  show natDigsF (n + 1) n = _
  rw [natDigsF]
  by_cases h10 : n < 10
  · rw [if_pos h10, if_pos h10]
  · rw [if_neg h10, if_neg h10]
    have hdiv : n / 10 < n := Nat.div_lt_self (by omega) (by omega)
    rw [natDigsF_congr n (n / 10) (by omega) (n / 10 + 1) (by omega)]
    rfl

/-- The decimal rendering of a natural number is never empty. -/
theorem natDigs_ne_nil (n : Nat) : natDigs n ≠ [] := by
  rw [natDigs_unfold]
  split <;> simp

/-- Every character of the decimal rendering is a digit. -/
theorem natDigs_digits (n : Nat) : ∀ c ∈ natDigs n, isDig c = true := by
  induction n using Nat.strong_induction_on with
  | _ n ih =>
    intro c hc
    rw [natDigs_unfold] at hc
    split at hc
    · rename_i h
      rw [List.mem_singleton] at hc
      subst hc
      interval_cases n <;> decide
    · rename_i h
      rw [List.mem_append] at hc
      rcases hc with hc | hc
      · exact ih (n / 10) (Nat.div_lt_self (by omega) (by omega)) c hc
      · rw [List.mem_singleton] at hc
        subst hc
        have h10 : n % 10 < 10 := Nat.mod_lt _ (by omega)
        interval_cases h : n % 10 <;> decide

/-- The leading digit of a positive number is not zero. -/
theorem natDigs_head_ne_zero (n : Nat) (hn : n ≠ 0) :
    ∀ c t, natDigs n = c :: t → c ≠ '0' := by
  induction n using Nat.strong_induction_on with
  | _ n ih =>
    intro c t hct
    rw [natDigs_unfold] at hct
    split at hct
    · rename_i h
      rw [show [Char.ofNat ('0'.toNat + n)] = Char.ofNat ('0'.toNat + n) :: [] from rfl] at hct
      obtain ⟨hc, -⟩ := List.cons.inj hct
      subst hc
      interval_cases n
      · exact absurd rfl hn
      all_goals decide
    · rename_i h
      obtain ⟨c2, t2, h2⟩ : ∃ c2 t2, natDigs (n / 10) = c2 :: t2 := by
        cases hd : natDigs (n / 10) with
        | nil => exact absurd hd (natDigs_ne_nil _)
        | cons a b => exact ⟨a, b, rfl⟩
      rw [h2, List.cons_append] at hct
      obtain ⟨hc, -⟩ := List.cons.inj hct
      subst hc
      exact ih (n / 10) (Nat.div_lt_self (by omega) (by omega)) (by omega) c2 t2 h2

/-- Appending a digit multiplies the accumulated value by ten. -/
theorem digitsVal_append (ds : List Char) (c : Char) :
    digitsVal (ds ++ [c]) = 10 * digitsVal ds + (c.toNat - '0'.toNat) := by
  simp [digitsVal, List.foldl_append]
  omega

/-- Decoding the decimal rendering gives the number back. -/
theorem digitsVal_natDigs (n : Nat) : digitsVal (natDigs n) = n := by
  induction n using Nat.strong_induction_on with
  | _ n ih =>
    rw [natDigs_unfold]
    split
    · rename_i h
      interval_cases n <;> decide
    · rename_i h
      rw [digitsVal_append, ih (n / 10) (Nat.div_lt_self (by omega) (by omega))]
      have : (Char.ofNat ('0'.toNat + n % 10)).toNat = '0'.toNat + n % 10 := by
        have h10 : n % 10 < 10 := Nat.mod_lt _ (by omega)
        interval_cases h : n % 10 <;> decide
      rw [this]
      omega

/-- A digit run stops immediately on an input that cannot extend an integer
token. -/
theorem scanDigits_stop (rest : List Char) (h : intStop rest = true) :
    scanDigits rest = ([], rest) := by
  cases rest with
  | nil => rfl
  | cons c t =>
    have hd : isDig c = false := by
      simp only [intStop, Bool.not_eq_true', Bool.or_eq_false_iff] at h
      exact h.1.1.1
    simp [scanDigits, hd]

/-- A digit run consumes exactly the digits at the head of the input. -/
theorem scanDigits_run (ds : List Char) (hds : ∀ c ∈ ds, isDig c = true)
    (rest : List Char) (hrest : scanDigits rest = ([], rest)) :
    scanDigits (ds ++ rest) = (ds, rest) := by
  induction ds with
  | nil => simpa using hrest
  | cons c t ih =>
    have hc : isDig c = true := hds c (by simp)
    have ht := ih (fun x hx => hds x (by simp [hx]))
    simp [scanDigits, hc, ht]

/-- A digit differs from the minus sign. -/
theorem isDig_ne_minus (c : Char) (h : isDig c = true) : c ≠ '-' := by
  intro e; subst e; exact absurd h (by decide)

/-- Evaluating the integer-token body once the digit run is known. -/
theorem scanIntCore_eval (neg : Bool) (body ds r : List Char)
    (hsd : scanDigits body = (ds, r)) (hne : ds ≠ []) :
    scanIntCore neg body
      = if ds.head? = some '0' ∧ 1 < ds.length then none
        else
          match r with
          | [] => some (if neg then -(digitsVal ds : Int) else (digitsVal ds : Int), [])
          | c :: _ =>
            if c = '.' || c = 'e' || c = 'E' then none
            else some (if neg then -(digitsVal ds : Int) else (digitsVal ds : Int), r) := by
  rw [scanIntCore.eq_def, hsd]
  cases ds with
  | nil => exact absurd rfl hne
  | cons a b => rfl

/-- Decoding an unsigned token rendered by `natDigs`, in either sign mode. -/
theorem scanIntCore_natDigs (neg : Bool) (m : Nat) (rest : List Char)
    (h : intStop rest = true) :
    scanIntCore neg (natDigs m ++ rest)
      = some (if neg then -(m : Int) else (m : Int), rest) := by
  obtain ⟨c, t, hct⟩ : ∃ c t, natDigs m = c :: t := by
    cases hd : natDigs m with
    | nil => exact absurd hd (natDigs_ne_nil _)
    | cons a b => exact ⟨a, b, rfl⟩
  have hrun : scanDigits (natDigs m ++ rest) = (natDigs m, rest) :=
    scanDigits_run (natDigs m) (natDigs_digits m) rest (scanDigits_stop rest h)
  rw [scanIntCore_eval neg _ (natDigs m) rest hrun (natDigs_ne_nil m), hct]
  have hz : ¬((c :: t).head? = some '0' ∧ 1 < (c :: t).length) := by
    by_cases hm : m = 0
    · subst hm
      have h0 : natDigs 0 = ['0'] := by decide
      rw [h0] at hct
      obtain ⟨hc, ht⟩ := List.cons.inj hct
      intro hco
      rw [← ht] at hco
      simp at hco
    · intro hco
      have hne := natDigs_head_ne_zero m hm c t hct
      rw [List.head?_cons] at hco
      exact hne (by injection hco.1)
  rw [if_neg hz]
  have hval : digitsVal (c :: t) = m := hct ▸ digitsVal_natDigs m
  cases rest with
  | nil => simp [hval]
  | cons d r =>
    have hnd : (d = '.' || d = 'e' || d = 'E') = false := by
      simp only [intStop, Bool.not_eq_true', Bool.or_eq_false_iff,
        decide_eq_false_iff_not] at h
      simp [h.1.1.2, h.1.2, h.2]
    simp only [hnd, Bool.false_eq_true, if_false, hval]

/-- One step of the integer-token decoder on a nonempty input. -/
theorem scanInt_cons (c : Char) (r : List Char) :
    scanInt (c :: r)
      = if c = '-' then scanIntCore true r else scanIntCore false (c :: r) := by
  rw [scanInt.eq_def]

/-- Decoding the decimal rendering of an integer recovers it whenever the
remainder cannot extend the token. -/
theorem scanInt_intDigs (n : Int) (rest : List Char) (h : intStop rest = true) :
    scanInt (intDigs n ++ rest) = some (n, rest) := by
  by_cases hneg : n < 0
  · rw [intDigs, if_pos hneg, List.cons_append, scanInt_cons, if_pos rfl,
      scanIntCore_natDigs true _ rest h]
    simp only [if_true, Option.some.injEq, Prod.mk.injEq, and_true, if_pos]
    omega
  · rw [intDigs, if_neg hneg]
    obtain ⟨c, t, hct⟩ : ∃ c t, natDigs n.natAbs = c :: t := by
      cases hd : natDigs n.natAbs with
      | nil => exact absurd hd (natDigs_ne_nil _)
      | cons a b => exact ⟨a, b, rfl⟩
    have hc : isDig c = true := natDigs_digits n.natAbs c (hct ▸ List.mem_cons_self _ _)
    rw [hct, List.cons_append, scanInt_cons, if_neg (isDig_ne_minus c hc),
      ← List.cons_append, ← hct, scanIntCore_natDigs false _ rest h]
    simp only [Bool.false_eq_true, if_false, Option.some.injEq, Prod.mk.injEq, and_true]
    omega

/-- A digit head is none of the dispatch characters of the value decoder and
is not whitespace. -/
theorem isDig_props (c : Char) (h : isDig c = true) :
    jsonWs c = false ∧ c ≠ ']' ∧ c ≠ '}' ∧ c ≠ ',' ∧ c ≠ '-' ∧ c ≠ 'n' ∧
    c ≠ 't' ∧ c ≠ 'f' ∧ c ≠ '"' ∧ c ≠ '[' ∧ c ≠ '{' := by
  have hws : jsonWs c = false := by
    cases hjw : jsonWs c
    · rfl
    · exfalso
      simp only [jsonWs, Bool.or_eq_true, decide_eq_true_eq] at hjw
      rcases hjw with ((e | e) | e) | e <;> (subst e; exact absurd h (by decide))
  refine ⟨hws, ?_, ?_, ?_, ?_, ?_, ?_, ?_, ?_, ?_, ?_⟩ <;>
    (intro e; subst e; exact absurd h (by decide))

/-- Whitespace ahead of a value is skipped by the value decoder. -/
theorem scanJson_skip (fuel : Nat) (c : Char) (cs : List Char)
    (h : jsonWs c = true) : scanJson fuel (c :: cs) = scanJson fuel cs := by
  cases fuel with
  | zero => rfl
  | succ f =>
    rw [scanJson.eq_def, scanJson.eq_def]
    have hsk : skipJsonWs (c :: cs) = skipJsonWs cs := by
      simp [skipJsonWs, h]
    rw [hsk]

/-- One step of the array-element decoder at successor fuel. -/
theorem scanArr_succ (f : Nat) (cs : List Char) :
    scanArr (f + 1) cs
      = match scanJson f cs with
        | none => none
        | some (v, r) =>
          match skipJsonWs r with
          | [] => none
          | d :: r1 =>
            if d = ',' then
              match scanArr f r1 with
              | some (vs, r2) => some (v :: vs, r2)
              | none => none
            else if d = ']' then some ([v], r1)
            else none := rfl

/-- Whitespace ahead of an array element list is skipped through the value
decoder it starts with. -/
theorem scanArr_skip (fuel : Nat) (c : Char) (cs : List Char)
    (h : jsonWs c = true) : scanArr fuel (c :: cs) = scanArr fuel cs := by
  cases fuel with
  | zero => rfl
  | succ f => rw [scanArr_succ, scanArr_succ, scanJson_skip f c cs h]

/-- One step of the object-entry decoder at successor fuel. -/
theorem scanObj_succ (f : Nat) (cs : List Char) :
    scanObj (f + 1) cs
      = match cs with
        | [] => none
        | c :: r =>
          if c = '"' then
            match scanStr [] r with
            | none => none
            | some (k, r1) =>
              match skipJsonWs r1 with
              | [] => none
              | d :: r2 =>
                if d = ':' then
                  match scanJson f r2 with
                  | none => none
                  | some (v, r3) =>
                    match skipJsonWs r3 with
                    | [] => none
                    | e :: r4 =>
                      if e = ',' then
                        match scanObj f (skipJsonWs r4) with
                        | some (kvs, r5) => some ((k, v) :: kvs, r5)
                        | none => none
                      else if e = '}' then some ([(k, v)], r4)
                      else none
            else none
          else none := rfl

/-- The decoder reads the `null` literal. -/
theorem scanJson_null (fuel : Nat) (rest : List Char) :
    scanJson (fuel + 1) ('n' :: 'u' :: 'l' :: 'l' :: rest) = some (.null, rest) := rfl

/-- The decoder reads the `true` literal. -/
theorem scanJson_true (fuel : Nat) (rest : List Char) :
    scanJson (fuel + 1) ('t' :: 'r' :: 'u' :: 'e' :: rest) = some (.bool true, rest) := rfl

/-- The decoder reads the `false` literal. -/
theorem scanJson_false (fuel : Nat) (rest : List Char) :
    scanJson (fuel + 1) ('f' :: 'a' :: 'l' :: 's' :: 'e' :: rest)
      = some (.bool false, rest) := rfl

/-- A quote dispatches the value decoder into the string scanner. -/
theorem scanJson_strStep (fuel : Nat) (r : List Char) :
    scanJson (fuel + 1) ('"' :: r)
      = match scanStr [] r with
        | some (s, r1) => some (.str s, r1)
        | none => none := rfl

/-- An opening bracket dispatches the value decoder into the array decoder. -/
theorem scanJson_arrStep (fuel : Nat) (r : List Char) :
    scanJson (fuel + 1) ('[' :: r)
      = match skipJsonWs r with
        | [] => none
        | d :: r1 =>
          if d = ']' then some (.arr [], r1)
          else
            match scanArr fuel (d :: r1) with
            | some (xs, r2) => some (.arr xs, r2)
            | none => none := rfl

/-- An opening brace dispatches the value decoder into the object decoder. -/
theorem scanJson_objStep (fuel : Nat) (r : List Char) :
    scanJson (fuel + 1) ('{' :: r)
      = match skipJsonWs r with
        | [] => none
        | d :: r1 =>
          if d = '}' then some (.obj [], r1)
          else
            match scanObj fuel (d :: r1) with
            | some (kvs, r2) => some (.obj kvs, r2)
            | none => none := rfl

/-- One step of the value decoder at successor fuel. -/
theorem scanJson_succ (f : Nat) (cs : List Char) :
    scanJson (f + 1) cs
      = match skipJsonWs cs with
        | [] => none
        | c :: r =>
          if c = '"' then
            match scanStr [] r with
            | some (s, r1) => some (.str s, r1)
            | none => none
          else if c = '[' then
            match skipJsonWs r with
            | [] => none
            | d :: r1 =>
              if d = ']' then some (.arr [], r1)
              else
                match scanArr f (d :: r1) with
                | some (xs, r2) => some (.arr xs, r2)
                | none => none
          else if c = '{' then
            match skipJsonWs r with
            | [] => none
            | d :: r1 =>
              if d = '}' then some (.obj [], r1)
              else
                match scanObj f (d :: r1) with
                | some (kvs, r2) => some (.obj kvs, r2)
                | none => none
          else if c = 'n' then
            if r.take 3 = ['u', 'l', 'l'] then some (.null, r.drop 3) else none
          else if c = 't' then
            if r.take 3 = ['r', 'u', 'e'] then some (.bool true, r.drop 3) else none
          else if c = 'f' then
            if r.take 4 = ['a', 'l', 's', 'e'] then some (.bool false, r.drop 4) else none
          else if c = '-' || isDig c then
            match scanInt (c :: r) with
            | some (n, r1) => some (.int n, r1)
            | none => none
          else none := rfl

/-- The value decoder on a nonempty input with a non-whitespace head,
written as the dispatch chain. -/
theorem scanJson_cons (f : Nat) (c : Char) (r : List Char) (hws : jsonWs c = false) :
    scanJson (f + 1) (c :: r)
      = if c = '"' then
          match scanStr [] r with
          | some (s, r1) => some (.str s, r1)
          | none => none
        else if c = '[' then
          match skipJsonWs r with
          | [] => none
          | d :: r1 =>
            if d = ']' then some (.arr [], r1)
            else
              match scanArr f (d :: r1) with
              | some (xs, r2) => some (.arr xs, r2)
              | none => none
        else if c = '{' then
          match skipJsonWs r with
          | [] => none
          | d :: r1 =>
            if d = '}' then some (.obj [], r1)
            else
              match scanObj f (d :: r1) with
              | some (kvs, r2) => some (.obj kvs, r2)
              | none => none
        else if c = 'n' then
          if r.take 3 = ['u', 'l', 'l'] then some (.null, r.drop 3) else none
        else if c = 't' then
          if r.take 3 = ['r', 'u', 'e'] then some (.bool true, r.drop 3) else none
        else if c = 'f' then
          if r.take 4 = ['a', 'l', 's', 'e'] then some (.bool false, r.drop 4) else none
        else if c = '-' || isDig c then
          match scanInt (c :: r) with
          | some (n, r1) => some (.int n, r1)
          | none => none
        else none := by
  rw [scanJson_succ, show skipJsonWs (c :: r) = c :: r from by simp [skipJsonWs, hws]]

/-- A sign or digit head dispatches the value decoder into the integer
decoder. -/
theorem scanJson_numStep (fuel : Nat) (c : Char) (r : List Char)
    (hws : jsonWs c = false) (hq : c ≠ '"') (hbk : c ≠ '[') (hbc : c ≠ '{')
    (hn : c ≠ 'n') (ht : c ≠ 't') (hf : c ≠ 'f')
    (hnum : (c = '-' || isDig c) = true) :
    scanJson (fuel + 1) (c :: r)
      = match scanInt (c :: r) with
        | some (n, r1) => some (.int n, r1)
        | none => none := by
  rw [scanJson_cons fuel c r hws, if_neg hq, if_neg hbk, if_neg hbc, if_neg hn,
    if_neg ht, if_neg hf, if_pos hnum]

/-- Every rendered value begins with a character that is not whitespace, not
a separator, and not a closing bracket or brace. -/
theorem dumpJson_head (j : PyJson) :
    ∃ c t, dumpJson j = c :: t ∧ jsonWs c = false ∧ c ≠ ']' ∧ c ≠ '}' ∧ c ≠ ',' := by
  cases j with
  | null => exact ⟨'n', _, rfl, by decide, by decide, by decide, by decide⟩
  | bool b =>
    cases b with
    | true => exact ⟨'t', _, rfl, by decide, by decide, by decide, by decide⟩
    | false => exact ⟨'f', _, rfl, by decide, by decide, by decide, by decide⟩
  | str s => exact ⟨'"', _, rfl, by decide, by decide, by decide, by decide⟩
  | arr xs =>
    cases xs with
    | nil => exact ⟨'[', _, rfl, by decide, by decide, by decide, by decide⟩
    | cons x xs => exact ⟨'[', _, rfl, by decide, by decide, by decide, by decide⟩
  | obj kvs =>
    cases kvs with
    | nil => exact ⟨'{', _, rfl, by decide, by decide, by decide, by decide⟩
    | cons kv kvs => exact ⟨'{', _, rfl, by decide, by decide, by decide, by decide⟩
  | int n =>
    by_cases hneg : n < 0
    · refine ⟨'-', natDigs n.natAbs, ?_, by decide, by decide, by decide, by decide⟩
      show intDigs n = _
      rw [intDigs, if_pos hneg]
    · obtain ⟨c, t, hct⟩ : ∃ c t, natDigs n.natAbs = c :: t := by
        cases hd : natDigs n.natAbs with
        | nil => exact absurd hd (natDigs_ne_nil _)
        | cons a b => exact ⟨a, b, rfl⟩
      have hc : isDig c = true := natDigs_digits n.natAbs c (hct ▸ List.mem_cons_self _ _)
      obtain ⟨hws, hbr, hbc, hcm, -⟩ := isDig_props c hc
      refine ⟨c, t, ?_, hws, hbr, hbc, hcm⟩
      show intDigs n = _
      rw [intDigs, if_neg hneg, hct]

/-- Leading whitespace removal is the identity on rendered output. -/
theorem skipJsonWs_dump (j : PyJson) (x : List Char) :
    skipJsonWs (dumpJson j ++ x) = dumpJson j ++ x := by
  obtain ⟨c, t, hct, hws, -, -, -⟩ := dumpJson_head j
  rw [hct, List.cons_append]
  simp [skipJsonWs, hws]

/-- What follows a value inside a rendered array cannot extend an integer
token. -/
theorem intStop_arrRest (xs : List PyJson) (rest : List Char) :
    intStop (dumpArrRest xs ++ ']' :: rest) = true := by
  cases xs <;> rfl

/-- What follows a value inside a rendered object cannot extend an integer
token. -/
theorem intStop_objRest (kvs : List (String × PyJson)) (rest : List Char) :
    intStop (dumpObjRest kvs ++ '}' :: rest) = true := by
  cases kvs <;> rfl

/-- The value decoder reads a rendered integer. -/
theorem scanJson_int (fuel : Nat) (n : Int) (rest : List Char)
    (hr : intStop rest = true) :
    scanJson (fuel + 1) (intDigs n ++ rest) = some (.int n, rest) := by
  by_cases hneg : n < 0
  · have harg : intDigs n ++ rest = '-' :: (natDigs n.natAbs ++ rest) := by
      rw [intDigs, if_pos hneg, List.cons_append]
    rw [harg, scanJson_numStep fuel '-' _ (by decide) (by decide) (by decide)
      (by decide) (by decide) (by decide) (by decide) (by decide), ← List.cons_append,
      ← show intDigs n = '-' :: natDigs n.natAbs from by rw [intDigs, if_pos hneg],
      scanInt_intDigs n rest hr]
  · obtain ⟨c, t, hct⟩ : ∃ c t, natDigs n.natAbs = c :: t := by
      cases hd : natDigs n.natAbs with
      | nil => exact absurd hd (natDigs_ne_nil _)
      | cons a b => exact ⟨a, b, rfl⟩
    have hc : isDig c = true := natDigs_digits n.natAbs c (hct ▸ List.mem_cons_self _ _)
    obtain ⟨hws, -, -, -, -, hn, ht, hf2, hq, hbk, hbc⟩ := isDig_props c hc
    have hd : intDigs n = c :: t := by rw [intDigs, if_neg hneg, hct]
    have harg : intDigs n ++ rest = c :: (t ++ rest) := by
      rw [hd, List.cons_append]
    rw [harg, scanJson_numStep fuel c _ hws hq hbk hbc hn ht hf2 (by simp [hc]),
      ← List.cons_append, ← hd, scanInt_intDigs n rest hr]

mutual

/-- Round trip of one value: decoding its rendering, followed by any
remainder that cannot extend an integer token, recovers it exactly. -/
theorem rtVal : ∀ (j : PyJson) (fuel : Nat) (rest : List Char),
    (dumpJson j).length < fuel → intStop rest = true →
    scanJson fuel (dumpJson j ++ rest) = some (j, rest)
  | .null, fuel, rest, hf, _ => by
    cases fuel with
    | zero => exact absurd hf (Nat.not_lt_zero _)
    | succ f =>
      rw [show dumpJson .null ++ rest = 'n' :: 'u' :: 'l' :: 'l' :: rest from rfl]
      exact scanJson_null f rest
  | .bool true, fuel, rest, hf, _ => by
    cases fuel with
    | zero => exact absurd hf (Nat.not_lt_zero _)
    | succ f =>
      rw [show dumpJson (.bool true) ++ rest = 't' :: 'r' :: 'u' :: 'e' :: rest from rfl]
      exact scanJson_true f rest
  | .bool false, fuel, rest, hf, _ => by
    cases fuel with
    | zero => exact absurd hf (Nat.not_lt_zero _)
    | succ f =>
      rw [show dumpJson (.bool false) ++ rest
        = 'f' :: 'a' :: 'l' :: 's' :: 'e' :: rest from rfl]
      exact scanJson_false f rest
  | .int n, fuel, rest, hf, hr => by
    cases fuel with
    | zero => exact absurd hf (Nat.not_lt_zero _)
    | succ f => exact scanJson_int f n rest hr
  | .str s, fuel, rest, hf, _ => by
    cases fuel with
    | zero => exact absurd hf (Nat.not_lt_zero _)
    | succ f =>
      have harg : dumpJson (.str s) ++ rest
          = '"' :: (s.toList.flatMap escChar ++ '"' :: rest) := by
        show strLit s ++ rest = _
        rw [strLit]
        simp
      rw [harg, scanJson_strStep, scanStr_strLit]
  | .arr [], fuel, rest, hf, _ => by
    cases fuel with
    | zero => exact absurd hf (Nat.not_lt_zero _)
    | succ f =>
      rw [show dumpJson (.arr []) ++ rest = '[' :: (']' :: rest) from rfl,
        scanJson_arrStep]
      rfl
  | .arr (x :: xs), fuel, rest, hf, _ => by
    cases fuel with
    | zero => exact absurd hf (Nat.not_lt_zero _)
    | succ f =>
      have harg : dumpJson (.arr (x :: xs)) ++ rest
          = '[' :: (dumpJson x ++ (dumpArrRest xs ++ ']' :: rest)) := by
        show ('[' :: (dumpJson x ++ dumpArrRest xs ++ [']'])) ++ rest = _
        simp
      obtain ⟨c, t, hct, hws, hbr, -, -⟩ := dumpJson_head x
      have hlen : (dumpJson x ++ dumpArrRest xs).length + 1 < f := by
        have : (dumpJson (.arr (x :: xs))).length < f + 1 := hf
        rw [show dumpJson (.arr (x :: xs))
          = '[' :: (dumpJson x ++ dumpArrRest xs ++ [']']) from rfl] at this
        simp only [List.length_cons, List.length_append] at this ⊢
        omega
      have key := rtArr x xs f rest hlen
      rw [harg, scanJson_arrStep, skipJsonWs_dump x _, hct, List.cons_append]
      show (if c = ']' then some (PyJson.arr [], t ++ (dumpArrRest xs ++ ']' :: rest))
            else
              match scanArr f (c :: (t ++ (dumpArrRest xs ++ ']' :: rest))) with
              | some (xs2, r2) => some (PyJson.arr xs2, r2)
              | none => none) = some (PyJson.arr (x :: xs), rest)
      rw [if_neg hbr, ← List.cons_append, ← hct, key]
  | .obj [], fuel, rest, hf, _ => by
    cases fuel with
    | zero => exact absurd hf (Nat.not_lt_zero _)
    | succ f =>
      rw [show dumpJson (.obj []) ++ rest = '{' :: ('}' :: rest) from rfl,
        scanJson_objStep]
      rfl
  | .obj (kv :: kvs), fuel, rest, hf, _ => by
    cases fuel with
    | zero => exact absurd hf (Nat.not_lt_zero _)
    | succ f =>
      have harg : dumpJson (.obj (kv :: kvs)) ++ rest
          = '{' :: (dumpPair kv ++ (dumpObjRest kvs ++ '}' :: rest)) := by
        show ('{' :: (dumpPair kv ++ dumpObjRest kvs ++ ['}'])) ++ rest = _
        simp
      have hq : ∃ u, dumpPair kv = '"' :: u := by
        obtain ⟨k, v⟩ := kv
        exact ⟨_, rfl⟩
      obtain ⟨u, hu⟩ := hq
      have hlen : (dumpPair kv ++ dumpObjRest kvs).length + 1 < f := by
        have : (dumpJson (.obj (kv :: kvs))).length < f + 1 := hf
        rw [show dumpJson (.obj (kv :: kvs))
          = '{' :: (dumpPair kv ++ dumpObjRest kvs ++ ['}']) from rfl] at this
        simp only [List.length_cons, List.length_append] at this ⊢
        omega
      have key := rtObj kv kvs f rest hlen
      rw [harg, scanJson_objStep]
      rw [show skipJsonWs (dumpPair kv ++ (dumpObjRest kvs ++ '}' :: rest))
          = dumpPair kv ++ (dumpObjRest kvs ++ '}' :: rest) from by
        rw [hu, List.cons_append]
        rfl]
      rw [hu, List.cons_append]
      show (if '"' = '}' then some (PyJson.obj [], u ++ (dumpObjRest kvs ++ '}' :: rest))
            else
              match scanObj f ('"' :: (u ++ (dumpObjRest kvs ++ '}' :: rest))) with
              | some (kvs2, r2) => some (PyJson.obj kvs2, r2)
              | none => none) = some (PyJson.obj (kv :: kvs), rest)
      rw [if_neg (by decide), ← List.cons_append, ← hu, key]
  termination_by j _ _ _ _ => sizeOf j

/-- Round trip of a nonempty element list: decoding the rendered elements up
to the closing bracket recovers the list. -/
theorem rtArr : ∀ (x : PyJson) (xs : List PyJson) (fuel : Nat) (rest : List Char),
    (dumpJson x ++ dumpArrRest xs).length + 1 < fuel →
    scanArr fuel (dumpJson x ++ (dumpArrRest xs ++ ']' :: rest)) = some (x :: xs, rest)
  | x, [], fuel, rest, hf => by
    cases fuel with
    | zero => exact absurd hf (Nat.not_lt_zero _)
    | succ f =>
      have hx : (dumpJson x).length < f := by
        simp only [List.length_append, dumpArrRest, List.length_nil] at hf
        omega
      have hv := rtVal x f (']' :: rest) hx rfl
      rw [show dumpJson x ++ (dumpArrRest [] ++ ']' :: rest)
        = dumpJson x ++ (']' :: rest) from by rw [dumpArrRest]; rfl]
      rw [scanArr_succ, hv]
      rfl
  | x, y :: ys, fuel, rest, hf => by
    cases fuel with
    | zero => exact absurd hf (Nat.not_lt_zero _)
    | succ f =>
      have hlens : (dumpJson x ++ dumpArrRest (y :: ys)).length
          = (dumpJson x).length + 2 + (dumpJson y ++ dumpArrRest ys).length := by
        rw [show dumpArrRest (y :: ys)
          = ',' :: ' ' :: (dumpJson y ++ dumpArrRest ys) from rfl]
        simp only [List.length_append, List.length_cons]
        omega
      have hx : (dumpJson x).length < f := by
        rw [hlens] at hf; omega
      have hys : (dumpJson y ++ dumpArrRest ys).length + 1 < f := by
        rw [hlens] at hf; omega
      have harg : dumpJson x ++ (dumpArrRest (y :: ys) ++ ']' :: rest)
          = dumpJson x ++ (',' :: ' ' :: (dumpJson y ++ (dumpArrRest ys ++ ']' :: rest))) := by
        rw [show dumpArrRest (y :: ys)
          = ',' :: ' ' :: (dumpJson y ++ dumpArrRest ys) from rfl]
        simp
      have hv := rtVal x f
        (',' :: ' ' :: (dumpJson y ++ (dumpArrRest ys ++ ']' :: rest))) hx rfl
      have key := rtArr y ys f rest hys
      rw [harg, scanArr_succ, hv]
      show (match scanArr f (' ' :: (dumpJson y ++ (dumpArrRest ys ++ ']' :: rest))) with
            | some (vs, r2) => some (x :: vs, r2)
            | none => none) = some (x :: y :: ys, rest)
      rw [scanArr_skip f ' ' _ (by decide), key]
  termination_by x xs _ _ _ => 1 + sizeOf x + sizeOf xs

/-- Round trip of a nonempty entry list: decoding the rendered entries up to
the closing brace recovers the list. -/
theorem rtObj : ∀ (kv : String × PyJson) (kvs : List (String × PyJson))
    (fuel : Nat) (rest : List Char),
    (dumpPair kv ++ dumpObjRest kvs).length + 1 < fuel →
    scanObj fuel (dumpPair kv ++ (dumpObjRest kvs ++ '}' :: rest)) = some (kv :: kvs, rest)
  | (k, v), [], fuel, rest, hf => by
    cases fuel with
    | zero => exact absurd hf (Nat.not_lt_zero _)
    | succ f =>
      have harg : dumpPair (k, v) ++ (dumpObjRest [] ++ '}' :: rest)
          = '"' :: (k.toList.flatMap escChar
              ++ '"' :: (':' :: ' ' :: (dumpJson v ++ ('}' :: rest)))) := by
        show (strLit k ++ ':' :: ' ' :: dumpJson v) ++ _ = _
        rw [strLit, dumpObjRest]
        simp
      have hvlen : (dumpJson v).length < f := by
        have h1 : (dumpPair (k, v)).length
            = (strLit k).length + 2 + (dumpJson v).length := by
          rw [show dumpPair (k, v) = strLit k ++ ':' :: ' ' :: dumpJson v from rfl]
          simp only [List.length_append, List.length_cons]
          omega
        have h2 : (dumpPair (k, v) ++ dumpObjRest []).length
            = (dumpPair (k, v)).length + (dumpObjRest []).length := by
          simp only [List.length_append]
        omega
      have hv := rtVal v f ('}' :: rest) hvlen rfl
      rw [harg, scanObj_succ]
      show (match scanStr [] (k.toList.flatMap escChar
              ++ '"' :: (':' :: ' ' :: (dumpJson v ++ ('}' :: rest)))) with
            | none => none
            | some (k1, r1) =>
              match skipJsonWs r1 with
              | [] => none
              | d :: r2 =>
                if d = ':' then
                  match scanJson f r2 with
                  | none => none
                  | some (v1, r3) =>
                    match skipJsonWs r3 with
                    | [] => none
                    | e :: r4 =>
                      if e = ',' then
                        match scanObj f (skipJsonWs r4) with
                        | some (kvs2, r5) => some ((k1, v1) :: kvs2, r5)
                        | none => none
                      else if e = '}' then some ([(k1, v1)], r4)
                      else none
                else none) = some ([(k, v)], rest)
      rw [scanStr_strLit]
      show (if ':' = ':' then
              match scanJson f (' ' :: (dumpJson v ++ ('}' :: rest))) with
              | none => none
              | some (v1, r3) =>
                match skipJsonWs r3 with
                | [] => none
                | e :: r4 =>
                  if e = ',' then
                    match scanObj f (skipJsonWs r4) with
                    | some (kvs2, r5) => some ((k, v1) :: kvs2, r5)
                    | none => none
                  else if e = '}' then some ([(k, v1)], r4)
                  else none
            else none) = some ([(k, v)], rest)
      rw [if_pos rfl, scanJson_skip f ' ' _ (by decide), hv]
      rfl
  | (k, v), (k2, v2) :: kvs2, fuel, rest, hf => by
    cases fuel with
    | zero => exact absurd hf (Nat.not_lt_zero _)
    | succ f =>
      have harg : dumpPair (k, v) ++ (dumpObjRest ((k2, v2) :: kvs2) ++ '}' :: rest)
          = '"' :: (k.toList.flatMap escChar
              ++ '"' :: (':' :: ' ' :: (dumpJson v
                ++ (dumpObjRest ((k2, v2) :: kvs2) ++ '}' :: rest)))) := by
        show (strLit k ++ ':' :: ' ' :: dumpJson v) ++ _ = _
        rw [strLit]
        simp
      have hvlen : (dumpJson v).length < f := by
        have h1 : (dumpPair (k, v)).length
            = (strLit k).length + 2 + (dumpJson v).length := by
          rw [show dumpPair (k, v) = strLit k ++ ':' :: ' ' :: dumpJson v from rfl]
          simp only [List.length_append, List.length_cons]
          omega
        have h2 : (dumpPair (k, v) ++ dumpObjRest ((k2, v2) :: kvs2)).length
            = (dumpPair (k, v)).length + (dumpObjRest ((k2, v2) :: kvs2)).length := by
          simp only [List.length_append]
        omega
      have hv := rtVal v f (dumpObjRest ((k2, v2) :: kvs2) ++ '}' :: rest) hvlen
        (intStop_objRest _ rest)
      have hlen2 : (dumpPair (k2, v2) ++ dumpObjRest kvs2).length + 1 < f := by
        have hsplit : (dumpObjRest ((k2, v2) :: kvs2)).length
            = 2 + (dumpPair (k2, v2)).length + (dumpObjRest kvs2).length := by
          rw [show dumpObjRest ((k2, v2) :: kvs2)
            = ',' :: ' ' :: (dumpPair (k2, v2) ++ dumpObjRest kvs2) from rfl]
          simp only [List.length_cons, List.length_append]
          omega
        have h2 : (dumpPair (k, v) ++ dumpObjRest ((k2, v2) :: kvs2)).length
            = (dumpPair (k, v)).length + (dumpObjRest ((k2, v2) :: kvs2)).length := by
          simp only [List.length_append]
        have h3 : (dumpPair (k2, v2) ++ dumpObjRest kvs2).length
            = (dumpPair (k2, v2)).length + (dumpObjRest kvs2).length := by
          simp only [List.length_append]
        omega
      have key := rtObj (k2, v2) kvs2 f rest hlen2
      rw [harg, scanObj_succ]
      show (match scanStr [] (k.toList.flatMap escChar
              ++ '"' :: (':' :: ' ' :: (dumpJson v
                ++ (dumpObjRest ((k2, v2) :: kvs2) ++ '}' :: rest)))) with
            | none => none
            | some (k1, r1) =>
              match skipJsonWs r1 with
              | [] => none
              | d :: r2 =>
                if d = ':' then
                  match scanJson f r2 with
                  | none => none
                  | some (v1, r3) =>
                    match skipJsonWs r3 with
                    | [] => none
                    | e :: r4 =>
                      if e = ',' then
                        match scanObj f (skipJsonWs r4) with
                        | some (kvs3, r5) => some ((k1, v1) :: kvs3, r5)
                        | none => none
                      else if e = '}' then some ([(k1, v1)], r4)
                      else none
                else none) = some ((k, v) :: (k2, v2) :: kvs2, rest)
      rw [scanStr_strLit]
      show (if ':' = ':' then
              match scanJson f (' ' :: (dumpJson v
                ++ (dumpObjRest ((k2, v2) :: kvs2) ++ '}' :: rest))) with
              | none => none
              | some (v1, r3) =>
                match skipJsonWs r3 with
                | [] => none
                | e :: r4 =>
                  if e = ',' then
                    match scanObj f (skipJsonWs r4) with
                    | some (kvs3, r5) => some ((k, v1) :: kvs3, r5)
                    | none => none
                  else if e = '}' then some ([(k, v1)], r4)
                  else none
            else none) = some ((k, v) :: (k2, v2) :: kvs2, rest)
      rw [if_pos rfl, scanJson_skip f ' ' _ (by decide), hv]
      have hrest : dumpObjRest ((k2, v2) :: kvs2) ++ '}' :: rest
          = ',' :: ' ' :: (dumpPair (k2, v2) ++ (dumpObjRest kvs2 ++ '}' :: rest)) := by
        rw [show dumpObjRest ((k2, v2) :: kvs2)
          = ',' :: ' ' :: (dumpPair (k2, v2) ++ dumpObjRest kvs2) from rfl]
        simp
      rw [hrest]
      show (if ',' = ',' then
              match scanObj f (skipJsonWs
                (' ' :: (dumpPair (k2, v2) ++ (dumpObjRest kvs2 ++ '}' :: rest)))) with
              | some (kvs3, r5) => some ((k, v) :: kvs3, r5)
              | none => none
            else if ',' = '}' then
              some ([(k, v)],
                ' ' :: (dumpPair (k2, v2) ++ (dumpObjRest kvs2 ++ '}' :: rest)))
            else none) = some ((k, v) :: (k2, v2) :: kvs2, rest)
      rw [if_pos rfl]
      have hskip : skipJsonWs (' ' :: (dumpPair (k2, v2) ++ (dumpObjRest kvs2 ++ '}' :: rest)))
          = dumpPair (k2, v2) ++ (dumpObjRest kvs2 ++ '}' :: rest) := by
        rw [show dumpPair (k2, v2)
          = '"' :: (k2.toList.flatMap escChar ++ ['"']) ++ ':' :: ' ' :: dumpJson v2 from rfl]
        rfl
      rw [hskip, key]
  termination_by kv kvs _ _ _ => 1 + sizeOf kv + sizeOf kvs

end

/-- Decoding a dumped document recovers the value exactly. -/
theorem pyLoads_pyDumps (v : PyJson) : pyLoads (pyDumps v) = some v := by
  have hscan : scanJson ((pyDumps v).length + 1) (pyDumps v).toList = some (v, []) := by
    have h := rtVal v ((dumpJson v).length + 1) [] (by omega) rfl
    rw [List.append_nil] at h
    exact h
  rw [pyLoads.eq_def, hscan]
  rfl

/-- A dumped document is never the empty string. -/
theorem pyDumps_ne_empty (v : PyJson) : pyDumps v ≠ "" := by
  obtain ⟨c, t, hct, -⟩ := dumpJson_head v
  intro h
  have := congrArg String.toList h
  rw [show (pyDumps v).toList = dumpJson v from rfl, hct] at this
  simp at this

/-- C7: reading a report back immediately after `create_report` yields a row
whose decoded payload is exactly the payload that was written — the store
round-trips payloads through its JSON encoding as the identity.  (The
hypothesis is the primary-key guarantee that no stored id reaches the next
`AUTOINCREMENT` value.) -/
theorem C7_payload_roundtrip (s : DBState) (rt : String) (reporter gid src : Nat)
    (p : PyJson) (now : Int) (hwf : ∀ r ∈ s.reports, r.id < s.nextId) :
    ∃ row, get_by_id (create_report s rt reporter gid src p now).2
            (create_report s rt reporter gid src p now).1 = some row ∧
          row_payload row = p := by
  refine ⟨{ id := s.nextId, report_type := rt.toUpper, reporter_id := reporter,
            guild_id := gid, source_channel_id := src, staff_message_id := none,
            status := "Open", payload_json := pyDumps p, created_at := now,
            updated_at := some now, ticket_channel_id := none, resolved_by := none,
            resolved_at := none }, ?_, ?_⟩
  · simp only [create_report, get_by_id]
    rw [List.find?_append]
    have hnone : s.reports.find? (fun r => r.id = s.nextId) = none := by
      rw [List.find?_eq_none]
      intro x hx
      simp only [decide_eq_true_eq]
      intro e
      exact absurd (e ▸ hwf x hx) (lt_irrefl _)
    rw [hnone]
    simp [List.find?]
  · simp only [row_payload]
    rw [if_neg (pyDumps_ne_empty p), pyLoads_pyDumps]

/-- C7 witness: the round trip evaluated on the empty store and a concrete
VOD payload with quotes and spaces in its fields. -/
theorem C7_witness :
    (∀ r ∈ dbEmpty.reports, r.id < dbEmpty.nextId) ∧
    ∃ row, get_by_id (create_report dbEmpty "vod" 5 7 9 pTest 100).2
            (create_report dbEmpty "vod" 5 7 9 pTest 100).1 = some row ∧
          row_payload row = pTest :=
  ⟨by simp [dbEmpty], C7_payload_roundtrip dbEmpty "vod" 5 7 9 pTest 100 (by simp [dbEmpty])⟩
